import Mathlib

/-!
# sep_proxy: the signature-gated reverse proxy of `main.go`

A shallow embedding of `loadPublicKey`, `verifySignature` and `proxyHandler`.

The three functions are translated statement by statement.  Calls into the Go
standard library whose result the program only passes on (file read, PEM and
X.509 parsing, SHA-256, RSA verification, JSON scanning, number conversion
and JSON printing, URL validation, the HTTP round trip) are fields of an
environment `Env`, so every general theorem holds for all behaviours of those
calls.  Standard-library
behaviour that a property depends on is written out:
`base64.StdEncoding.DecodeString`, the way `json.Unmarshal` fills a
`map[string]interface{}`, `http.Error`, `http.NewRequestWithContext`,
`Header.Add`, `strings.ToLower` and `strings.HasPrefix`.

The effects of one handler run are recorded as a trace of events (calls of
`verifySignature`, requests handed to `client.Do`) next to the response
written to the caller.

The examples run in a concrete environment with a real 2048-bit RSA key and a
real signature, checked by SHA-256 and RSA PKCS #1 v1.5 verification written
out in the file; numbers are converted as `strconv.ParseFloat` does and the
forwarded body is printed as `json.Marshal` does, both written out as well.
-/

set_option autoImplicit false

namespace SepProxy

/-! ## Constants (`main.go`, lines 27-34) -/

/-- The fixed upstream origin. -/
def bankDomain : String := "https://sep.shaparak.ir"

/-- The key file read on every request (`main.go`, line 122). -/
def publicKeyPath : String := "public_key.pem"

/-- The constant `http.StatusBadRequest`. -/
def StatusBadRequest : Nat := 400

/-- The constant `http.StatusUnauthorized`. -/
def StatusUnauthorized : Nat := 401

/-- The constant `http.StatusNotFound`. -/
def StatusNotFound : Nat := 404

/-- The constant `http.StatusInternalServerError`. -/
def StatusInternalServerError : Nat := 500

/-- The constant `http.StatusBadGateway`. -/
def StatusBadGateway : Nat := 502

/-! ## Data model -/

/-- A Go `http.Header`: a map from header name to its list of values, kept as
an association list.  A Go map holds every key once. -/
abbrev Header := List (String × List String)

/-- A value of Go type `interface{}` as `json.Unmarshal` produces it: `nil`,
`bool`, `float64` (kept as its IEEE-754 bit pattern; no arithmetic is done on
it), `string`, `[]interface{}` and `map[string]interface{}`. -/
inductive GoValue where
  | nil
  | bool (b : Bool)
  | float64 (bits : Nat)
  | string (s : String)
  | slice (xs : List GoValue)
  | map (kvs : List (String × GoValue))

/-- A Go `map[string]interface{}`, kept as an association list with one entry
per key. -/
abbrev GoMap := List (String × GoValue)

/-- The map read `m[k]`: the stored value, if the key is present. -/
def GoMap.get (m : GoMap) (k : String) : Option GoValue :=
  match m with
  | [] => none
  | (k', v) :: rest => if k' = k then some v else GoMap.get rest k

/-- The map write `m[k] = v`: replaces the value of a present key, adds an
absent one. -/
def GoMap.set (m : GoMap) (k : String) (v : GoValue) : GoMap :=
  match m with
  | [] => [(k, v)]
  | (k', v') :: rest => if k' = k then (k, v) :: rest else (k', v') :: GoMap.set rest k v

/-- The builtin `delete(m, k)`. -/
def GoMap.delete (m : GoMap) (k : String) : GoMap :=
  m.filter (fun kv => decide (kv.1 ≠ k))

/-- A JSON value as a text spells it: a number is kept by its literal, the
members of an object are listed in document order. -/
inductive Json where
  | null
  | bool (b : Bool)
  | number (literal : String)
  | string (s : String)
  | array (xs : List Json)
  | object (members : List (String × Json))

/-- The top-level value of a syntactically valid JSON text, as the decoder of
`encoding/json` sees it; the members of an object are listed in document order
with their values already decoded to `interface{}`. -/
inductive JsonTop where
  | null
  | bool (b : Bool)
  | number (literal : String)
  | string (s : String)
  | array (xs : List GoValue)
  | object (members : List (String × GoValue))

/-- An `rsa.PublicKey`: the modulus `N` is a `*big.Int` and may be nil, the
exponent `E` is an `int`. -/
structure RSAPublicKey where
  N : Option Nat
  E : Int

/-- What `x509.ParsePKIXPublicKey` returns on success: an RSA key or a key of
another algorithm (named by `kind`). -/
inductive PublicKey where
  | rsa (key : RSAPublicKey)
  | other (kind : String)

/-- A `pem.Block`: its type line and its decoded bytes. -/
structure PemBlock where
  type : String
  bytes : List Nat

/-- The request `client.Do` receives: what `http.NewRequestWithContext`
recorded (method, target URL, body) and the header built by the handler. -/
structure OutboundRequest where
  method : String
  url : String
  header : Header
  body : String

/-- The upstream's answer as the handler uses it: status code, header, the
bytes `io.Copy` relayed, and whether `io.Copy` ended with an error. -/
structure UpstreamResponse where
  statusCode : Nat
  header : Header
  body : String
  copyFailed : Bool

/-- The inbound `*http.Request` as the handler reads it: `r.Method`,
`r.URL.Path`, `r.URL.RawQuery`, `r.Header`, and the result of
`io.ReadAll(r.Body)`. -/
structure Request where
  method : String
  path : String
  rawQuery : String
  header : Header
  body : Except String String

/-- What the caller receives. -/
structure Response where
  status : Nat
  header : Header
  body : String

/-- The effects of a handler run that the properties speak about. -/
inductive Event where
  | verify (key : RSAPublicKey) (data : String) (signature : String)
  | send (req : OutboundRequest)

/-- One run of the handler: its effects in order, and the response. -/
structure Outcome where
  trace : List Event
  response : Response

/-- The standard-library and operating-system calls of the program. -/
structure Env where
  /-- The call `os.ReadFile`. -/
  readFile : String → Except String String
  /-- The call `strings.TrimSpace`. -/
  trimSpace : String → String
  /-- The call `pem.Decode`, first result (nil when no block is found). -/
  pemDecode : String → Option PemBlock
  /-- The call `x509.ParsePKIXPublicKey`. -/
  parsePKIXPublicKey : List Nat → Except String PublicKey
  /-- The SHA-256 digest of the bytes of a string. -/
  sha256 : String → List Nat
  /-- The call `rsa.VerifyPKCS1v15(key, crypto.SHA256, hashed, sig)`. -/
  verifyPKCS1v15 : RSAPublicKey → List Nat → List Nat → Except String Unit
  /-- The syntax check and scan of `json.Unmarshal`: the value a text spells,
  or a `SyntaxError`. -/
  jsonScan : String → Except String Json
  /-- The call `strconv.ParseFloat(literal, 64)` that turns a number literal
  into a `float64` (its bit pattern); an error for a number out of range. -/
  parseFloat : String → Except String Nat
  /-- The call `json.Marshal` on a `map[string]interface{}`. -/
  jsonMarshal : GoMap → Except String String
  /-- The method check of `http.NewRequestWithContext`. -/
  validMethod : String → Bool
  /-- The call `url.Parse` inside `http.NewRequestWithContext`: its error, if any. -/
  urlParseError : String → Option String
  /-- The call `textproto.CanonicalMIMEHeaderKey`. -/
  canonicalMIMEHeaderKey : String → String
  /-- The round trip `client.Do`. -/
  clientDo : OutboundRequest → Except String UpstreamResponse

/-! ## Standard-library behaviour written out -/

/-- The call `strings.ToLower`, rune by rune.  Only the ASCII letters matter
for the comparison with `x-` that it feeds. -/
def toLower (s : String) : String := ⟨s.data.map Char.toLower⟩

/-- The call `strings.HasPrefix`. -/
def hasPrefix (s pre : String) : Bool := pre.data.isPrefixOf s.data

/-- The decode map of `base64.StdEncoding`: the value of a symbol of the
standard alphabet, nothing for any other character. -/
def b64Value (c : Char) : Option Nat :=
  if 'A' ≤ c ∧ c ≤ 'Z' then some (c.toNat - 65)
  else if 'a' ≤ c ∧ c ≤ 'z' then some (c.toNat - 97 + 26)
  else if '0' ≤ c ∧ c ≤ '9' then some (c.toNat - 48 + 52)
  else if c = '+' then some 62
  else if c = '/' then some 63
  else none

/-- The quanta of `base64.StdEncoding` (padding `=`, not strict) after the
ignored line breaks are gone.  Four symbols give three bytes; a last quantum
`ab==` gives one byte and `abc=` two, and the bits of its last symbol that do
not fit are dropped without a check, as `decodeQuantum` does when `strict` is
off.  Anything else (an incomplete quantum, padding elsewhere, a character
outside the alphabet) is a `CorruptInputError`, here `none`. -/
def decodeQuanta : List Char → Option (List Nat)
  | [] => some []
  | [a, b, '=', '='] =>
    match b64Value a, b64Value b with
    | some x, some y => some [(x * 4 + y / 16) % 256]
    | _, _ => none
  | [a, b, c, '='] =>
    match b64Value a, b64Value b, b64Value c with
    | some x, some y, some z => some [(x * 4 + y / 16) % 256, (y * 16 + z / 4) % 256]
    | _, _, _ => none
  | a :: b :: c :: d :: rest =>
    match b64Value a, b64Value b, b64Value c, b64Value d, decodeQuanta rest with
    | some x, some y, some z, some w, some tail =>
      some ((x * 4 + y / 16) % 256 :: (y * 16 + z / 4) % 256 :: (z * 64 + w) % 256 :: tail)
    | _, _, _, _, _ => none
  | _ => none

/-- The call `base64.StdEncoding.DecodeString`: carriage returns and line
feeds are skipped wherever they stand, the rest is decoded quantum by quantum.
`none` stands for the error result. -/
def base64Decode (s : String) : Option (List Nat) :=
  decodeQuanta (s.data.filter (fun c => c != '\r' && c != '\n'))

/-- The call `http.Error(w, msg, code)` on a response nothing was written to:
two headers, the status, and the message followed by a line feed. -/
def httpError (msg : String) (code : Nat) : Response :=
  { status := code
    header := [("Content-Type", ["text/plain; charset=utf-8"]),
               ("X-Content-Type-Options", ["nosniff"])]
    body := msg ++ "\n" }

/-- The header read `h[k]`. -/
def Header.get (h : Header) (k : String) : Option (List String) :=
  match h with
  | [] => none
  | (k', vs) :: rest => if k' = k then some vs else Header.get rest k

/-- The statement `h[k] = append(h[k], v)`. -/
def Header.append (h : Header) (k v : String) : Header :=
  match h with
  | [] => [(k, [v])]
  | (k', vs) :: rest =>
    if k' = k then (k', vs ++ [v]) :: rest else (k', vs) :: Header.append rest k v

/-- The call `Header.Add(key, value)`: the key is put in canonical form, the
value is appended to the values of that key. -/
def Header.add (E : Env) (h : Header) (key value : String) : Header :=
  Header.append h (E.canonicalMIMEHeaderKey key) value

/-- The map an object's members leave behind when they are stored one after
the other. -/
def fromMembers (members : List (String × GoValue)) : GoMap :=
  members.foldl (fun m kv => GoMap.set m kv.1 kv.2) []

mutual
/-- The value of type `interface{}` the decoder stores for a JSON value: null,
booleans and strings as they are, a number as the `float64` that
`strconv.ParseFloat` gives for its literal, an array as a slice of the decoded
elements, an object as a map of the decoded members.  A number out of range
is an `UnmarshalTypeError`. -/
def toInterface (E : Env) : Json → Except String GoValue
  | .null => .ok .nil
  | .bool b => .ok (.bool b)
  | .number literal =>
    match E.parseFloat literal with
    | .error e => .error e
    | .ok bits => .ok (.float64 bits)
  | .string s => .ok (.string s)
  | .array xs =>
    match toInterfaceList E xs with
    | .error e => .error e
    | .ok gs => .ok (.slice gs)
  | .object members =>
    match toInterfaceMembers E members with
    | .error e => .error e
    | .ok kvs => .ok (.map (fromMembers kvs))
/-- The decoded elements of an array. -/
def toInterfaceList (E : Env) : List Json → Except String (List GoValue)
  | [] => .ok []
  | x :: xs =>
    match toInterface E x, toInterfaceList E xs with
    | .ok g, .ok gs => .ok (g :: gs)
    | .error e, _ => .error e
    | .ok _, .error e => .error e
/-- The members of an object with their values decoded. -/
def toInterfaceMembers (E : Env) :
    List (String × Json) → Except String (List (String × GoValue))
  | [] => .ok []
  | (k, v) :: rest =>
    match toInterface E v, toInterfaceMembers E rest with
    | .ok g, .ok gs => .ok ((k, g) :: gs)
    | .error e, _ => .error e
    | .ok _, .error e => .error e
end

/-- The decoder's view of a request body: the scanned text with the elements
of a top-level array and the members of a top-level object decoded to
`interface{}`; an error for a text that is not JSON or holds a number out of
the `float64` range. -/
def Env.jsonDecode (E : Env) (body : String) : Except String JsonTop :=
  match E.jsonScan body with
  | .error e => .error e
  | .ok .null => .ok .null
  | .ok (.bool b) => .ok (.bool b)
  | .ok (.number literal) => .ok (.number literal)
  | .ok (.string s) => .ok (.string s)
  | .ok (.array xs) =>
    match toInterfaceList E xs with
    | .error e => .error e
    | .ok gs => .ok (.array gs)
  | .ok (.object members) =>
    match toInterfaceMembers E members with
    | .error e => .error e
    | .ok kvs => .ok (.object kvs)

/-- The way `json.Unmarshal(body, &data)` fills `data`, a nil
`map[string]interface{}`: a text the decoder rejects is an error; an object
stores its members one after the other, a later duplicate key overwriting the
earlier one; `null` leaves the map nil without an error (a nil map reads as
empty); every other top-level value is an `UnmarshalTypeError`. -/
def jsonUnmarshal (E : Env) (body : String) : Except String GoMap :=
  match E.jsonDecode body with
  | .error e => .error e
  | .ok (.object members) => .ok (fromMembers members)
  | .ok .null => .ok []
  | .ok (.bool _) =>
    .error "json: cannot unmarshal bool into Go value of type map[string]interface \x7b\x7d"
  | .ok (.number _) =>
    .error "json: cannot unmarshal number into Go value of type map[string]interface \x7b\x7d"
  | .ok (.string _) =>
    .error "json: cannot unmarshal string into Go value of type map[string]interface \x7b\x7d"
  | .ok (.array _) =>
    .error "json: cannot unmarshal array into Go value of type map[string]interface \x7b\x7d"

/-- The type assertion `v.(string)` in its two-result form, on the result of a
map read: the string and `true`, or the empty string and `false`. -/
def assertString : Option GoValue → String × Bool
  | some (.string s) => (s, true)
  | _ => ("", false)

/-- The call `http.NewRequestWithContext(ctx, method, url, body)`: an empty
method stands for `GET`, the method and the URL are validated, the new request
has an empty header. -/
def newRequestWithContext (E : Env) (method url body : String) :
    Except String OutboundRequest :=
  let method := if method = "" then "GET" else method
  if E.validMethod method = false then .error ("net/http: invalid method " ++ method)
  else
    match E.urlParseError url with
    | some e => .error e
    | none => .ok { method := method, url := url, header := [], body := body }

/-! ## The program -/

/-- The function `loadPublicKey` (`main.go`, lines 36-67). -/
def loadPublicKey (E : Env) (pubKeyPath : String) : Except String RSAPublicKey :=
  match E.readFile pubKeyPath with
  | .error err => .error ("failed to read public key file: " ++ err)
  | .ok pubKeyBytes =>
    let formattedPubKey := E.trimSpace pubKeyBytes
    match E.pemDecode formattedPubKey with
    | none => .error "invalid PEM block"
    | some block =>
      if block.type ≠ "PUBLIC KEY" ∧ block.type ≠ "RSA PUBLIC KEY" then
        .error ("unexpected PEM block type: " ++ block.type)
      else
        match E.parsePKIXPublicKey block.bytes with
        | .error err => .error ("failed to parse public key: " ++ err)
        | .ok (.other _) => .error "key is not an RSA public key"
        | .ok (.rsa publicKey) =>
          if publicKey.N = none ∨ publicKey.E = 0 then .error "invalid RSA public key"
          else .ok publicKey

/-- The function `verifySignature` (`main.go`, lines 69-85).  The text of the
base64 error stands without the byte position Go appends to it. -/
def verifySignature (E : Env) (publicKey : RSAPublicKey) (data signature : String) :
    Except String Unit :=
  match base64Decode signature with
  | none => .error "invalid base64 signature: illegal base64 data"
  | some signatureBytes =>
    let hashedData := E.sha256 data
    match E.verifyPKCS1v15 publicKey hashedData signatureBytes with
    | .error err => .error ("signature verification failed: " ++ err)
    | .ok _ => .ok ()

/-- The header test of `main.go`, line 192 (negated): the lower-cased name
starts with `x-`. -/
def isForwardableHeader (name : String) : Bool := hasPrefix (toLower name) "x-"

/-- The inner loop of `main.go`, lines 195-197, and of lines 225-227. -/
def addValues (E : Env) (h : Header) (name : String) (values : List String) : Header :=
  values.foldl (fun acc value => Header.add E acc name value) h

/-- The loop of `main.go`, lines 191-198, over the inbound header.  Go visits
the entries of a map in no fixed order, the model in list order; with every
name held once, the values that end up under a name do not depend on it. -/
def forwardHeaders (E : Env) (inbound : Header) (out : Header) : Header :=
  inbound.foldl
    (fun acc nv => if isForwardableHeader nv.1 = false then acc else addValues E acc nv.1 nv.2)
    out

/-- The loop of `main.go`, lines 224-228, over the upstream's header. -/
def copyHeaders (E : Env) (upstream : Header) (out : Header) : Header :=
  upstream.foldl (fun acc nv => addValues E acc nv.1 nv.2) out

/-- Lines 223-235 of `main.go`: header, status and body of the upstream are
relayed; when `io.Copy` fails, `http.Error` runs after the status line is out,
so only its message is appended. -/
def relay (E : Env) (resp : UpstreamResponse) : Response :=
  { status := resp.statusCode
    header := copyHeaders E resp.header []
    body := if resp.copyFailed then resp.body ++ "Response transfer failed\n" else resp.body }

/-- Lines 174-178 of `main.go`. -/
def targetURL (r : Request) : String :=
  if r.rawQuery ≠ "" then bankDomain ++ r.path ++ "?" ++ r.rawQuery
  else bankDomain ++ r.path

/-- The function `proxyHandler` (`main.go`, lines 121-236). -/
def proxyHandler (E : Env) (r : Request) : Outcome :=
  match loadPublicKey E publicKeyPath with
  | .error err =>
    ⟨[], httpError ("Public key error: " ++ err) StatusInternalServerError⟩
  | .ok publicKey =>
  match r.body with
  | .error _ => ⟨[], httpError "Error reading request body" StatusInternalServerError⟩
  | .ok body =>
  match jsonUnmarshal E body with
  | .error _ => ⟨[], httpError "Invalid JSON" StatusBadRequest⟩
  | .ok data =>
  let (sec, okSec) := assertString (data.get "sec")
  let (secval, okSecVal) := assertString (data.get "secval")
  if okSec = false ∨ okSecVal = false then
    ⟨[], httpError "sec and secval must be strings" StatusBadRequest⟩
  else if sec = "" ∨ secval = "" then
    ⟨[], httpError "" StatusNotFound⟩
  else
  match verifySignature E publicKey secval sec with
  | .error _ =>
    ⟨[.verify publicKey secval sec],
      httpError "Signature verification failed" StatusUnauthorized⟩
  | .ok _ =>
  let data := (data.delete "sec").delete "secval"
  match E.jsonMarshal data with
  | .error _ =>
    ⟨[.verify publicKey secval sec],
      httpError "Error generating modified body" StatusInternalServerError⟩
  | .ok modifiedBody =>
  match newRequestWithContext E r.method (targetURL r) modifiedBody with
  | .error _ =>
    ⟨[.verify publicKey secval sec],
      httpError "Failed to create request" StatusInternalServerError⟩
  | .ok req0 =>
  let req := { req0 with header := forwardHeaders E r.header req0.header }
  match E.clientDo req with
  | .error _ =>
    ⟨[.verify publicKey secval sec, .send req],
      httpError "Failed to reach target server" StatusBadGateway⟩
  | .ok resp =>
    ⟨[.verify publicKey secval sec, .send req], relay E resp⟩

/-! ## Notions used to state the properties -/

/-- The request would pass every check before verification: the key loads, the
body is read and decodes to `data`, and `sec` and `secval` are non-empty
strings. -/
structure Checked (E : Env) (r : Request) (key : RSAPublicKey) (data : GoMap)
    (sec secval : String) : Prop where
  hkey : loadPublicKey E publicKeyPath = .ok key
  hbody : ∃ body, r.body = .ok body ∧ jsonUnmarshal E body = .ok data
  hsec : data.get "sec" = some (.string sec)
  hsecval : data.get "secval" = some (.string secval)
  hsecNe : sec ≠ ""
  hsecvalNe : secval ≠ ""

/-- The value of key `k` in an object with the given members: that of its last
occurrence, should the key be repeated. -/
def memberValue {α : Type} (members : List (String × α)) (k : String) : Option α :=
  match members with
  | [] => none
  | (k', v) :: rest =>
    match memberValue rest k with
    | some w => some w
    | none => if k' = k then some v else none

/-- The members of an object with the value of every member `sec` replaced by
the string `sec`. -/
def withSec (members : List (String × GoValue)) (sec : String) : List (String × GoValue) :=
  members.map (fun kv => if kv.1 = "sec" then (kv.1, GoValue.string sec) else kv)

/-- Every element of the list is a byte. -/
def IsBytes (bs : List Nat) : Prop := ∀ b ∈ bs, b < 256

instance (bs : List Nat) : Decidable (IsBytes bs) :=
  inferInstanceAs (Decidable (∀ b ∈ bs, b < 256))

/-- The number of positions at which two texts differ. -/
def charsChanged (s t : List Char) : Nat :=
  ((s.zip t).filter (fun p => p.1 != p.2)).length

/-- The text `t` is `s` with exactly one character changed to another. -/
def OneCharChanged (s t : String) : Prop :=
  s.data.length = t.data.length ∧ charsChanged s.data t.data = 1

/-- The spec's wording of the header test, a name that begins with `x-`
case-insensitively: its first character is `x` or `X` and its second is `-`. -/
def BeginsWithXDash (name : String) : Prop :=
  ∃ c rest, name.data = c :: '-' :: rest ∧ (c = 'x' ∨ c = 'X')

/-- The values of a header, as the map read `h[k]` gives them: none for an
absent name. -/
def Header.values (h : Header) (k : String) : List String :=
  (Header.get h k).getD []

/-- The map that is serialised for the upstream (`main.go`, lines 164-165). -/
def sanitized (data : GoMap) : GoMap := (data.delete "sec").delete "secval"

/-- The request handed to `client.Do` (`main.go`, lines 174-198), when
`http.NewRequestWithContext` accepts method and URL. -/
def outbound (E : Env) (r : Request) (modifiedBody : String) :
    Except String OutboundRequest :=
  match newRequestWithContext E r.method (targetURL r) modifiedBody with
  | .error e => .error e
  | .ok req0 => .ok { req0 with header := forwardHeaders E r.header req0.header }

/-- The ways a run of the handler can end, each with what led to it and the
outcome it produces: one case per `return` of `proxyHandler` and one for the
relayed answer. -/
inductive Stage (E : Env) (r : Request) : Outcome → Prop where
  | keyError (err : String) (hkey : loadPublicKey E publicKeyPath = .error err) :
      Stage E r ⟨[], httpError ("Public key error: " ++ err) StatusInternalServerError⟩
  | readError (key : RSAPublicKey) (err : String)
      (hkey : loadPublicKey E publicKeyPath = .ok key) (hbody : r.body = .error err) :
      Stage E r ⟨[], httpError "Error reading request body" StatusInternalServerError⟩
  | jsonError (key : RSAPublicKey) (body err : String)
      (hkey : loadPublicKey E publicKeyPath = .ok key) (hbody : r.body = .ok body)
      (hjson : jsonUnmarshal E body = .error err) :
      Stage E r ⟨[], httpError "Invalid JSON" StatusBadRequest⟩
  | notStrings (key : RSAPublicKey) (body : String) (data : GoMap)
      (hkey : loadPublicKey E publicKeyPath = .ok key) (hbody : r.body = .ok body)
      (hjson : jsonUnmarshal E body = .ok data)
      (hty : (assertString (data.get "sec")).2 = false ∨
        (assertString (data.get "secval")).2 = false) :
      Stage E r ⟨[], httpError "sec and secval must be strings" StatusBadRequest⟩
  | empty (key : RSAPublicKey) (body : String) (data : GoMap) (sec secval : String)
      (hkey : loadPublicKey E publicKeyPath = .ok key) (hbody : r.body = .ok body)
      (hjson : jsonUnmarshal E body = .ok data)
      (hsec : data.get "sec" = some (.string sec))
      (hsecval : data.get "secval" = some (.string secval))
      (hempty : sec = "" ∨ secval = "") :
      Stage E r ⟨[], httpError "" StatusNotFound⟩
  | badSignature (key : RSAPublicKey) (data : GoMap) (sec secval err : String)
      (h : Checked E r key data sec secval)
      (hv : verifySignature E key secval sec = .error err) :
      Stage E r ⟨[.verify key secval sec],
        httpError "Signature verification failed" StatusUnauthorized⟩
  | marshalError (key : RSAPublicKey) (data : GoMap) (sec secval err : String)
      (h : Checked E r key data sec secval)
      (hv : verifySignature E key secval sec = .ok ())
      (hm : E.jsonMarshal (sanitized data) = .error err) :
      Stage E r ⟨[.verify key secval sec],
        httpError "Error generating modified body" StatusInternalServerError⟩
  | newRequestError (key : RSAPublicKey) (data : GoMap) (sec secval modifiedBody err : String)
      (h : Checked E r key data sec secval)
      (hv : verifySignature E key secval sec = .ok ())
      (hm : E.jsonMarshal (sanitized data) = .ok modifiedBody)
      (hn : outbound E r modifiedBody = .error err) :
      Stage E r ⟨[.verify key secval sec],
        httpError "Failed to create request" StatusInternalServerError⟩
  | unreachable (key : RSAPublicKey) (data : GoMap) (sec secval modifiedBody err : String)
      (req : OutboundRequest)
      (h : Checked E r key data sec secval)
      (hv : verifySignature E key secval sec = .ok ())
      (hm : E.jsonMarshal (sanitized data) = .ok modifiedBody)
      (hn : outbound E r modifiedBody = .ok req)
      (hd : E.clientDo req = .error err) :
      Stage E r ⟨[.verify key secval sec, .send req],
        httpError "Failed to reach target server" StatusBadGateway⟩
  | relayed (key : RSAPublicKey) (data : GoMap) (sec secval modifiedBody : String)
      (req : OutboundRequest) (resp : UpstreamResponse)
      (h : Checked E r key data sec secval)
      (hv : verifySignature E key secval sec = .ok ())
      (hm : E.jsonMarshal (sanitized data) = .ok modifiedBody)
      (hn : outbound E r modifiedBody = .ok req)
      (hd : E.clientDo req = .ok resp) :
      Stage E r ⟨[.verify key secval sec, .send req], relay E resp⟩

/-- One of the steps before forwarding fails: key loading, body read, JSON
parsing, the type check of `sec` and `secval`, the emptiness check, or
signature verification (each reached because the steps before it succeeded). -/
inductive StepFails (E : Env) (r : Request) : Prop where
  | keyLoading (err : String) (hkey : loadPublicKey E publicKeyPath = .error err)
  | bodyRead (key : RSAPublicKey) (err : String)
      (hkey : loadPublicKey E publicKeyPath = .ok key) (hbody : r.body = .error err)
  | jsonParsing (key : RSAPublicKey) (body err : String)
      (hkey : loadPublicKey E publicKeyPath = .ok key) (hbody : r.body = .ok body)
      (hjson : jsonUnmarshal E body = .error err)
  | typeCheck (key : RSAPublicKey) (body : String) (data : GoMap)
      (hkey : loadPublicKey E publicKeyPath = .ok key) (hbody : r.body = .ok body)
      (hjson : jsonUnmarshal E body = .ok data)
      (hty : (¬ ∃ s, data.get "sec" = some (.string s)) ∨
        (¬ ∃ s, data.get "secval" = some (.string s)))
  | emptiness (key : RSAPublicKey) (body : String) (data : GoMap) (sec secval : String)
      (hkey : loadPublicKey E publicKeyPath = .ok key) (hbody : r.body = .ok body)
      (hjson : jsonUnmarshal E body = .ok data)
      (hsec : data.get "sec" = some (.string sec))
      (hsecval : data.get "secval" = some (.string secval))
      (hempty : sec = "" ∨ secval = "")
  | signature (key : RSAPublicKey) (data : GoMap) (sec secval err : String)
      (h : Checked E r key data sec secval)
      (hv : verifySignature E key secval sec = .error err)

/-- All the steps before forwarding succeed. -/
def StepsSucceed (E : Env) (r : Request) : Prop :=
  ∃ key data sec secval, Checked E r key data sec secval ∧
    verifySignature E key secval sec = .ok ()

/-! ## A concrete environment

The examples run in an environment in which the library calls compute what Go
computes: SHA-256, RSA PKCS #1 v1.5 verification, `strconv.ParseFloat` and
`json.Marshal` are written out, and the key is a 2048-bit RSA key. -/

/-- The bytes of a Go string (UTF-8). -/
def utf8Bytes (s : String) : List Nat :=
  (s.data.flatMap String.utf8EncodeChar).map UInt8.toNat

/-- The `k` low bytes of `n`, most significant first. -/
def beBytes : Nat → Nat → List Nat
  | 0, _ => []
  | k + 1, n => (n / 256 ^ k) % 256 :: beBytes k n

/-- The number a big-endian byte string stands for. -/
def beValue (bs : List Nat) : Nat := bs.foldl (fun acc b => acc * 256 + b) 0

/-- Rotation of a 32-bit word to the right. -/
def rotr32 (x n : Nat) : Nat := ((x >>> n) ||| (x <<< (32 - n))) % 4294967296

/-- The round constants of SHA-256. -/
def sha256K : List Nat := [
  0x428a2f98, 0x71374491, 0xb5c0fbcf, 0xe9b5dba5, 0x3956c25b, 0x59f111f1, 0x923f82a4, 0xab1c5ed5,
  0xd807aa98, 0x12835b01, 0x243185be, 0x550c7dc3, 0x72be5d74, 0x80deb1fe, 0x9bdc06a7, 0xc19bf174,
  0xe49b69c1, 0xefbe4786, 0x0fc19dc6, 0x240ca1cc, 0x2de92c6f, 0x4a7484aa, 0x5cb0a9dc, 0x76f988da,
  0x983e5152, 0xa831c66d, 0xb00327c8, 0xbf597fc7, 0xc6e00bf3, 0xd5a79147, 0x06ca6351, 0x14292967,
  0x27b70a85, 0x2e1b2138, 0x4d2c6dfc, 0x53380d13, 0x650a7354, 0x766a0abb, 0x81c2c92e, 0x92722c85,
  0xa2bfe8a1, 0xa81a664b, 0xc24b8b70, 0xc76c51a3, 0xd192e819, 0xd6990624, 0xf40e3585, 0x106aa070,
  0x19a4c116, 0x1e376c08, 0x2748774c, 0x34b0bcb5, 0x391c0cb3, 0x4ed8aa4a, 0x5b9cca4f, 0x682e6ff3,
  0x748f82ee, 0x78a5636f, 0x84c87814, 0x8cc70208, 0x90befffa, 0xa4506ceb, 0xbef9a3f7, 0xc67178f2]

/-- The initial hash value of SHA-256. -/
def sha256Init : List Nat :=
  [0x6a09e667, 0xbb67ae85, 0x3c6ef372, 0xa54ff53a, 0x510e527f, 0x9b05688c, 0x1f83d9ab, 0x5be0cd19]

/-- The padded message: a `0x80` byte, zero bytes up to 56 modulo 64, and the
bit length in eight bytes. -/
def sha256Pad (msg : List Nat) : List Nat :=
  msg ++ [0x80] ++ List.replicate ((119 - msg.length % 64) % 64) 0 ++ beBytes 8 (8 * msg.length)

/-- At most `count` consecutive pieces of `n` elements. -/
def chunks (n : Nat) : Nat → List Nat → List (List Nat)
  | 0, _ => []
  | count + 1, xs => if xs.isEmpty then [] else xs.take n :: chunks n count (xs.drop n)

/-- The 64 words of the message schedule of one block. -/
def sha256Schedule (block : List Nat) : List Nat :=
  (List.range 48).foldl
    (fun w i =>
      let a := w.getD (i + 1) 0
      let b := w.getD (i + 14) 0
      let s0 := rotr32 a 7 ^^^ rotr32 a 18 ^^^ (a >>> 3)
      let s1 := rotr32 b 17 ^^^ rotr32 b 19 ^^^ (b >>> 10)
      w ++ [(w.getD i 0 + s0 + w.getD (i + 9) 0 + s1) % 4294967296])
    ((chunks 4 16 block).map beValue)

/-- One round of the compression function, on the eight working variables. -/
def sha256Round (st : List Nat) (kw : Nat × Nat) : List Nat :=
  match st with
  | [a, b, c, d, e, f, g, h] =>
    let s1 := rotr32 e 6 ^^^ rotr32 e 11 ^^^ rotr32 e 25
    let ch := (e &&& f) ^^^ ((4294967295 - e) &&& g)
    let t1 := (h + s1 + ch + kw.1 + kw.2) % 4294967296
    let s0 := rotr32 a 2 ^^^ rotr32 a 13 ^^^ rotr32 a 22
    let maj := (a &&& b) ^^^ (a &&& c) ^^^ (b &&& c)
    let t2 := (s0 + maj) % 4294967296
    [(t1 + t2) % 4294967296, a, b, c, (d + t1) % 4294967296, e, f, g]
  | _ => st

/-- The compression function: 64 rounds, then the feed-forward addition. -/
def sha256Compress (st : List Nat) (block : List Nat) : List Nat :=
  ((st.zip ((sha256K.zip (sha256Schedule block)).foldl sha256Round st)).map
    (fun p => (p.1 + p.2) % 4294967296))

/-- The SHA-256 digest of a byte string (FIPS 180-4), 32 bytes. -/
def sha256 (msg : List Nat) : List Nat :=
  ((chunks 64 ((sha256Pad msg).length / 64) (sha256Pad msg)).foldl sha256Compress sha256Init).flatMap
    (beBytes 4)

/-- Modular exponentiation by squaring; `steps` bounds the bit length of `e`. -/
def powMod (b m : Nat) : Nat → Nat → Nat
  | 0, _ => 1 % m
  | steps + 1, e =>
    if e = 0 then 1 % m
    else if e % 2 = 1 then (powMod b m steps (e / 2) * powMod b m steps (e / 2) % m) * b % m
    else powMod b m steps (e / 2) * powMod b m steps (e / 2) % m

/-- The length in bytes of a number (`PublicKey.Size` for a modulus). -/
def byteLen : Nat → Nat → Nat
  | 0, _ => 0
  | bound + 1, n => if n = 0 then 0 else byteLen bound (n / 256) + 1

/-- The DER prefix of a SHA-256 `DigestInfo`. -/
def sha256DigestInfo : List Nat :=
  [0x30, 0x31, 0x30, 0x0d, 0x06, 0x09, 0x60, 0x86, 0x48, 0x01, 0x65, 0x03, 0x04, 0x02, 0x01,
   0x05, 0x00, 0x04, 0x20]

/-- The call `rsa.VerifyPKCS1v15(pub, crypto.SHA256, hashed, sig)`: the
signature has the length of the modulus and is smaller than it, and its
`E`-th power modulo `N` is the block `00 01 FF .. FF 00`, the `DigestInfo`
prefix and the digest. -/
def rsaVerifyPKCS1v15 (pub : RSAPublicKey) (hashed sig : List Nat) : Except String Unit :=
  match pub.N with
  | none => .error "crypto/rsa: missing public modulus"
  | some n =>
    if pub.E < 2 then .error "crypto/rsa: public exponent too small"
    else if 2147483647 < pub.E then .error "crypto/rsa: public exponent too large"
    else if hashed.length ≠ 32 then
      .error "crypto/rsa: input must be hashed message"
    else if byteLen n n < sha256DigestInfo.length + 32 + 11 then
      .error "crypto/rsa: verification error"
    else if sig.length ≠ byteLen n n then .error "crypto/rsa: verification error"
    else if n ≤ beValue sig then .error "crypto/rsa: verification error"
    else if beBytes (byteLen n n) (powMod (beValue sig) n 32 pub.E.toNat) =
        [0, 1] ++ List.replicate (byteLen n n - (sha256DigestInfo.length + 32) - 3) 255 ++ [0]
          ++ sha256DigestInfo ++ hashed then .ok ()
    else .error "crypto/rsa: verification error"

/-- The first prime of the sample key, `2^194 * 3^181 * 5^148 * 7^71 + 1`; the
shape of `sampleP - 1` makes its primality checkable by the Lucas test. -/
def sampleP : Nat :=
  161542851939439508731496175390041449517636018121430966276489875593011547465613538475519601622575827623147740131607421991505415564029859316613524595157693429186560000000000000000000000000000000000000000000000000000000000000000000000000000000000000000000000000000000000000000000000000000000000000000000000000001

/-- The second prime of the sample key, `2^196 * 3^93 * 5^137 * 7^129 + 1`. -/
def sampleQ : Nat :=
  141479525614873553216625359985843428343724129595087779412316871376848347323897415770555843315832432454025514637874445275101929554381111588667557496829220979610973788490956800000000000000000000000000000000000000000000000000000000000000000000000000000000000000000000000000000000000000000000000000000000000000001

/-- The modulus of the sample key, `sampleP * sampleQ`. -/
def sampleN : Nat :=
  22855006058865657830315821450330219194196233311571238121726589669911139832331738852707510180005620336705413752683307909541533579750690378009051341266978529700408696825790446080578965046721790554702878300969500578665600351003905394173784451810597976472717775863681049538560374894921429909722509782705803655132043597356537576802048729535375884877861360147716518745688806746969859894789510954246075444938408260077173254769481867266607345118410970905281082091986914408797533788490956800000000000000000000000000000000000000000000000000000000000000000000000000000000000000000000000000000000000000000000000000000000000000001

/-- The private exponent of the sample key: `65537 * sampleD` is
`1 + sampleT * ((sampleP - 1) * (sampleQ - 1))`. -/
def sampleD : Nat :=
  14017030281063311577150527600814392332446151055515118865139975055196428802367241580263449107758150416002218599803971468271547380937474236747117042447547721482189101732087541232628758122708327350286517393673315932357067618417855156833866247403377863898933705892317257505727996529082380240038246459344752919943927562608988102945963407509528968369012923997131391427743106947220653981720249629980011291331614202664143918702412377740818163785342630880266109220745533057662084013610632161984832995102003448433709202435265575171277293742466087858766803485054244167416879014907609441994598471092665212017638891008132810473473

/-- The multiple of `(sampleP - 1) * (sampleQ - 1)` in `65537 * sampleD - 1`. -/
def sampleT : Nat := 40194

/-- The text of the sample `public_key.pem`. -/
def samplePEM : String :=
    "-----BEGIN PUBLIC KEY-----\n" ++
    "MIIBIjANBgkqhkiG9w0BAQEFAAOCAQ8AMIIBCgKCAQEAtQvo3dp8EZ78D1CBmCCD\n" ++
    "6nZPMokmSucTI9fIGnMbmNmy0y1L+8u9Jfjm84WLB2wIA+DrYnv8K43VHcAiss5b\n" ++
    "QZ0zneJMPPZsnAcE+GsuSxzPdaaps4Ki+HdvtGbUPNs3RxgGp0mKO6sVkWWTSP+g\n" ++
    "yiyKqXrxSE8rvvwp/+QOTUVOYHAUMc3gN78DdIzwk8iZMMgAk8t/bCM6OafXgiCn\n" ++
    "RWSpVXeCmu6glLnsiM7E/i/2/MzO28zLBkbWriVbTSqW+eu+wfyP2DK5/TIvNn+E\n" ++
    "4eMgh5wGqsCQRP4T4XaI+l9zXT8Wfba0JAAAAAAAAAAAAAAAAAAAAAAAAAAAAAAA\n" ++
    "AQIDAQAB\n" ++
    "-----END PUBLIC KEY-----\n"

/-- The DER bytes inside `samplePEM`; the modulus ends in 23 zero bytes and
a one. -/
def sampleDER : List Nat := [
   48, 130, 1, 34, 48, 13, 6, 9, 42, 134, 72, 134, 247, 13, 1, 1, 1, 5, 0, 3, 130, 1, 15, 0,
   48, 130, 1, 10, 2, 130, 1, 1, 0, 181, 11, 232, 221, 218, 124, 17, 158, 252, 15, 80, 129,
   152, 32, 131, 234, 118, 79, 50, 137, 38, 74, 231, 19, 35, 215, 200, 26, 115, 27, 152, 217,
   178, 211, 45, 75, 251, 203, 189, 37, 248, 230, 243, 133, 139, 7, 108, 8, 3, 224, 235, 98,
   123, 252, 43, 141, 213, 29, 192, 34, 178, 206, 91, 65, 157, 51, 157, 226, 76, 60, 246, 108,
   156, 7, 4, 248, 107, 46, 75, 28, 207, 117, 166, 169, 179, 130, 162, 248, 119, 111, 180, 102,
   212, 60, 219, 55, 71, 24, 6, 167, 73, 138, 59, 171, 21, 145, 101, 147, 72, 255, 160, 202,
   44, 138, 169, 122, 241, 72, 79, 43, 190, 252, 41, 255, 228, 14, 77, 69, 78, 96, 112, 20, 49,
   205, 224, 55, 191, 3, 116, 140, 240, 147, 200, 153, 48, 200, 0, 147, 203, 127, 108, 35, 58,
   57, 167, 215, 130, 32, 167, 69, 100, 169, 85, 119, 130, 154, 238, 160, 148, 185, 236, 136,
   206, 196, 254, 47, 246, 252, 204, 206, 219, 204, 203, 6, 70, 214, 174, 37, 91, 77, 42, 150,
   249, 235, 190, 193, 252, 143, 216, 50, 185, 253, 50, 47, 54, 127, 132, 225, 227, 32, 135,
   156, 6, 170, 192, 144, 68, 254, 19, 225, 118, 136, 250, 95, 115, 93, 63, 22, 125, 182, 180,
   36] ++ List.replicate 23 0 ++ [1, 2, 3, 1, 0, 1]

/-- The RSA key encoded by `sampleDER`. -/
def sampleKey : RSAPublicKey :=
  { N := some sampleN
    E := 65537 }

/-- The value signed in the sample request. -/
def sampleSecval : String := "1000|order123"

/-- The base64 text of the RSASSA-PKCS1-v1_5 SHA-256 signature of
`sampleSecval` under the private key of `sampleKey`. -/
def sampleSec : String :=
    "A5eNgUJlOcpr4badW6jbhUT6xgoXYbvsFRpW3brNcos2bNBrkS3d40TgEMAOYtZE7GHR6SOyMAjY" ++
    "LBKkrXvpqYyQ+iunYqAOjGOzD7Emu4ePsSt09s24/ndEuwc3LEfHzk2TOqDPr/1joFpgazC0eTZE" ++
    "hlcwN2aBWmmRMl6CsclnlgrxyiZkqv+sZq+3PY2fuhghl0s9fmd4RlYmCRS6NFa0H954QDwAHTC3" ++
    "nMQcDqv0XPaI/zRa0KzVvXQIqikILPCM9Wn4mCbWHZV9yGLbprGkvkK23bZrEq0m9VbNmcCWsIK5" ++
    "ggOzsFHo1GZhCTJHP9CmsrGE7dxYD+xHA2CNOA=="

/-- The text `sampleSec` with its character at index 341 changed from `A` to
`B`: the last symbol before the padding, of which only the two high bits are
used. -/
def tamperedSec : String :=
    "A5eNgUJlOcpr4badW6jbhUT6xgoXYbvsFRpW3brNcos2bNBrkS3d40TgEMAOYtZE7GHR6SOyMAjY" ++
    "LBKkrXvpqYyQ+iunYqAOjGOzD7Emu4ePsSt09s24/ndEuwc3LEfHzk2TOqDPr/1joFpgazC0eTZE" ++
    "hlcwN2aBWmmRMl6CsclnlgrxyiZkqv+sZq+3PY2fuhghl0s9fmd4RlYmCRS6NFa0H954QDwAHTC3" ++
    "nMQcDqv0XPaI/zRa0KzVvXQIqikILPCM9Wn4mCbWHZV9yGLbprGkvkK23bZrEq0m9VbNmcCWsIK5" ++
    "ggOzsFHo1GZhCTJHP9CmsrGE7dxYD+xHA2CNOB=="

/-- The text `sampleSec` with its first character changed from `A` to `B`. -/
def brokenSec : String :=
    "B5eNgUJlOcpr4badW6jbhUT6xgoXYbvsFRpW3brNcos2bNBrkS3d40TgEMAOYtZE7GHR6SOyMAjY" ++
    "LBKkrXvpqYyQ+iunYqAOjGOzD7Emu4ePsSt09s24/ndEuwc3LEfHzk2TOqDPr/1joFpgazC0eTZE" ++
    "hlcwN2aBWmmRMl6CsclnlgrxyiZkqv+sZq+3PY2fuhghl0s9fmd4RlYmCRS6NFa0H954QDwAHTC3" ++
    "nMQcDqv0XPaI/zRa0KzVvXQIqikILPCM9Wn4mCbWHZV9yGLbprGkvkK23bZrEq0m9VbNmcCWsIK5" ++
    "ggOzsFHo1GZhCTJHP9CmsrGE7dxYD+xHA2CNOA=="

/-- The number of binary digits of `n`; `bound` bounds the recursion. -/
def bitLen : Nat → Nat → Nat
  | 0, _ => 0
  | bound + 1, n => if n = 0 then 0 else bitLen bound (n / 2) + 1

/-- The number of decimal digits of `n`; `bound` bounds the recursion. -/
def decLen : Nat → Nat → Nat
  | 0, _ => 0
  | bound + 1, n => if n = 0 then 0 else decLen bound (n / 10) + 1

/-- The float64 nearest to `m * 10 ^ x` (a tie goes to the even mantissa), as
its bit pattern without the sign; an error beyond the largest float64, zero
below half the smallest one. -/
def roundToFloat64 (m : Nat) (x : Int) : Except String Nat :=
  if m = 0 then .ok 0
  else if x + (decLen m m : Int) > 310 then .error "value out of range"
  else if x + (decLen m m : Int) < -330 then .ok 0
  else
    let p := if 0 ≤ x then m * 10 ^ x.toNat else m
    let q := if 0 ≤ x then 1 else 10 ^ (-x).toNat
    let e0 : Int := (bitLen p p : Int) - (bitLen q q : Int) - 53
    let e1 : Int :=
      if 2 ^ 53 ≤ (if 0 ≤ e0 then p / (q * 2 ^ e0.toNat) else p * 2 ^ (-e0).toNat / q) then e0 + 1
      else e0
    let e2 : Int := if e1 < -1074 then -1074 else e1
    let num := if 0 ≤ e2 then p else p * 2 ^ (-e2).toNat
    let den := if 0 ≤ e2 then q * 2 ^ e2.toNat else q
    let up : Bool :=
      decide (den < 2 * (num % den)) ||
        (decide (2 * (num % den) = den) && decide (num / den % 2 = 1))
    let mt := if up then num / den + 1 else num / den
    let mt' := if mt = 2 ^ 53 then 2 ^ 52 else mt
    let e3 : Int := if mt = 2 ^ 53 then e2 + 1 else e2
    if mt' < 2 ^ 52 then .ok mt'
    else if 2047 ≤ e3 + 1075 then .error "value out of range"
    else .ok ((e3 + 1075).toNat * 2 ^ 52 + (mt' - 2 ^ 52))

/-- The character is a decimal digit. -/
def isDigit (c : Char) : Bool := '0' ≤ c && c ≤ '9'

/-- The number a string of decimal digits spells. -/
def digitsValue (cs : List Char) : Nat := cs.foldl (fun acc c => acc * 10 + (c.toNat - 48)) 0

/-- The call `strconv.ParseFloat(literal, 64)` on a JSON number literal (an
optional minus sign, integer digits, an optional fraction, an optional
exponent): the nearest float64 as its bit pattern, a range error beyond the
largest one. -/
def parseFloat64 (literal : String) : Except String Nat :=
  let cs := literal.data
  let neg := cs.head? == some '-'
  let cs1 := if neg then cs.drop 1 else cs
  let intPart := cs1.takeWhile isDigit
  let cs2 := cs1.dropWhile isDigit
  let fracPart := if cs2.head? == some '.' then (cs2.drop 1).takeWhile isDigit else []
  let cs3 := if cs2.head? == some '.' then (cs2.drop 1).dropWhile isDigit else cs2
  let hasExp := cs3.head? == some 'e' || cs3.head? == some 'E'
  let cs4 := cs3.drop 1
  let expNeg := cs4.head? == some '-'
  let cs5 := if cs4.head? == some '-' || cs4.head? == some '+' then cs4.drop 1 else cs4
  let expAbs : Int := if hasExp then (digitsValue (cs5.takeWhile isDigit) : Int) else 0
  let exp : Int := (if expNeg then -expAbs else expAbs) - (fracPart.length : Int)
  match roundToFloat64 (digitsValue (intPart ++ fracPart)) exp with
  | .error e => .error e
  | .ok bits => .ok (if neg then 2 ^ 63 + bits else bits)

/-- The decimal digits of `n`, most significant first; `bound` bounds the
recursion. -/
def decDigits : Nat → Nat → List Char
  | 0, _ => []
  | bound + 1, n =>
    if n < 10 then [Char.ofNat (48 + n)]
    else decDigits bound (n / 10) ++ [Char.ofNat (48 + n % 10)]

/-- The least `j` from `j` on with `q ≤ p * 10 ^ j`; `bound` bounds the search. -/
def scaleUp (p q : Nat) : Nat → Nat → Nat
  | 0, j => j
  | bound + 1, j => if q ≤ p * 10 ^ j then j else scaleUp p q bound (j + 1)

/-- The decimal with `n` digits, among the two that enclose `p / q`, that
rounds to the float64 `bits`: its digits as a number and its decimal exponent,
or nothing when neither does.  When both do, the nearer one is taken, the even
one on a tie. -/
def shortestWith (bits p q : Nat) (n : Nat) : Option (Nat × Int) :=
  let k : Int := if q ≤ p then (decLen (p / q) (p / q) : Int) - 1 else -(scaleUp p q 400 1 : Int)
  let x : Int := k - ((n : Int) - 1)
  let num := if 0 ≤ x then p else p * 10 ^ (-x).toNat
  let den := if 0 ≤ x then q * 10 ^ x.toNat else q
  let low := num / den
  let okLow : Bool :=
    match roundToFloat64 low x with
    | .ok b => b == bits
    | .error _ => false
  let okUp : Bool :=
    match roundToFloat64 (low + 1) x with
    | .ok b => b == bits
    | .error _ => false
  let preferUp : Bool :=
    decide (den < 2 * (num % den)) || (decide (2 * (num % den) = den) && decide (low % 2 = 1))
  let best : Nat := if preferUp then low + 1 else low
  match okLow, okUp with
  | true, true => some (best, x)
  | true, false => some (low, x)
  | false, true => some (low + 1, x)
  | false, false => none

/-- The first success of `shortestWith` for `n`, `n + 1` and so on. -/
def shortestFrom (bits p q : Nat) : Nat → Nat → Option (Nat × Int)
  | 0, _ => none
  | bound + 1, n =>
    match shortestWith bits p q n with
    | some r => some r
    | none => shortestFrom bits p q bound (n + 1)

/-- A decimal without its trailing zeros. -/
def stripZeros : Nat → Nat → Int → Nat × Int
  | 0, d, x => (d, x)
  | bound + 1, d, x => if d ≠ 0 ∧ d % 10 = 0 then stripZeros bound (d / 10) (x + 1) else (d, x)

/-- The shortest decimal that rounds to the positive finite float64 `bits`
(precision `-1` of `strconv.FormatFloat`): its digits and the position of the
decimal point counted from the first digit. -/
def shortestDecimal (bits : Nat) : List Char × Int :=
  let ef : Nat := bits / 2 ^ 52 % 2048
  let fr : Nat := bits % 2 ^ 52
  let mant : Nat := if ef = 0 then fr else fr + 2 ^ 52
  let e2 : Int := if ef = 0 then -1074 else (ef : Int) - 1075
  let p := if 0 ≤ e2 then mant * 2 ^ e2.toNat else mant
  let q := if 0 ≤ e2 then 1 else 2 ^ (-e2).toNat
  match shortestFrom bits p q 17 1 with
  | none => ([], 0)
  | some (d, x) =>
    let r := stripZeros 20 d x
    (decDigits 20 r.1, (decDigits 20 r.1).length + r.2)

/-- The layout `%f` of digits with the decimal point at `dp`. -/
def layoutF (ds : List Char) (dp : Int) : List Char :=
  let n : Int := (ds.length : Int)
  let intPart :=
    if 0 < dp then ds.take dp.toNat ++ List.replicate (dp - n).toNat '0' else ['0']
  let fracPart :=
    if dp < n then '.' :: (List.replicate (-dp).toNat '0' ++ ds.drop dp.toNat) else []
  intPart ++ fracPart

/-- The layout `%e` as `encoding/json` leaves it: one digit before the point,
and an exponent whose leading zero is dropped. -/
def layoutE (ds : List Char) (dp : Int) : List Char :=
  let mantissa := if ds.length ≤ 1 then ds else ds.take 1 ++ '.' :: ds.drop 1
  let e : Int := dp - 1
  mantissa ++ 'e' :: (if e < 0 then '-' else '+') :: decDigits 20 e.natAbs

/-- The float encoder of `encoding/json`: the shortest digits, laid out as
`%e` below `1e-6` and from `1e21` on and as `%f` otherwise; NaN and the
infinities are an `UnsupportedValueError`. -/
def formatFloat64 (bits : Nat) : Except String String :=
  let neg := bits / 2 ^ 63 % 2 = 1
  let abs := bits % 2 ^ 63
  if abs / 2 ^ 52 = 2047 then .error "json: unsupported value"
  else if abs = 0 then .ok (if neg then "-0" else "0")
  else
    let sd := shortestDecimal abs
    let text :=
      if abs < 0x3EB0C6F7A0B5ED8D ∨ 0x444B1AE4D6E2EF50 ≤ abs then layoutE sd.1 sd.2
      else layoutF sd.1 sd.2
    .ok ⟨if neg then '-' :: text else text⟩

/-- A hexadecimal digit, lower case. -/
def hexDigit (n : Nat) : Char := if n < 10 then Char.ofNat (48 + n) else Char.ofNat (87 + n)

/-- The way `encoding/json` writes a character inside a string: the quote and
the backslash escaped, the short escapes for line feed, carriage return, tab,
backspace and form feed, `\u` escapes for the other control characters, for
`<`, `>` and `&` and for U+2028 and U+2029, every other character as it is. -/
def escapeChar (c : Char) : List Char :=
  if c = '"' then ['\\', '"']
  else if c = '\\' then ['\\', '\\']
  else if c = '\n' then ['\\', 'n']
  else if c = '\r' then ['\\', 'r']
  else if c = '\t' then ['\\', 't']
  else if c.toNat = 8 then ['\\', 'b']
  else if c.toNat = 12 then ['\\', 'f']
  else if c.toNat < 32 ∨ c = '<' ∨ c = '>' ∨ c = '&' ∨ c.toNat = 0x2028 ∨ c.toNat = 0x2029 then
    ['\\', 'u', hexDigit (c.toNat / 4096 % 16), hexDigit (c.toNat / 256 % 16),
      hexDigit (c.toNat / 16 % 16), hexDigit (c.toNat % 16)]
  else [c]

/-- A string as `encoding/json` writes it. -/
def quote (s : String) : String := ⟨'"' :: (s.data.flatMap escapeChar ++ ['"'])⟩

/-- The order of map keys in the output of `json.Marshal`. -/
def keyLe : List Char → List Char → Bool
  | [], _ => true
  | _ :: _, [] => false
  | a :: as, b :: bs => if a = b then keyLe as bs else decide (a.toNat < b.toNat)

/-- Insertion of a member into a list sorted by key. -/
def insertMember (kv : String × String) : List (String × String) → List (String × String)
  | [] => [kv]
  | kv' :: rest =>
    if keyLe kv.1.data kv'.1.data then kv :: kv' :: rest else kv' :: insertMember kv rest

/-- The members sorted by key. -/
def sortMembers (members : List (String × String)) : List (String × String) :=
  members.foldr insertMember []

/-- The texts joined by commas. -/
def commaJoin : List String → String
  | [] => ""
  | [t] => t
  | t :: rest => t ++ "," ++ commaJoin rest

mutual
/-- The call `json.Marshal` on a value the decoder can produce: compact, the
members of a map sorted by key. -/
def marshalValue : GoValue → Except String String
  | .nil => .ok "null"
  | .bool b => .ok (if b then "true" else "false")
  | .float64 bits => formatFloat64 bits
  | .string s => .ok (quote s)
  | .slice xs =>
    match marshalList xs with
    | .error e => .error e
    | .ok parts => .ok ("[" ++ commaJoin parts ++ "]")
  | .map kvs =>
    match marshalMembers kvs with
    | .error e => .error e
    | .ok parts =>
      .ok ("\x7b" ++ commaJoin ((sortMembers parts).map (fun kv => quote kv.1 ++ ":" ++ kv.2))
        ++ "\x7d")
/-- The texts of the elements of a slice. -/
def marshalList : List GoValue → Except String (List String)
  | [] => .ok []
  | x :: xs =>
    match marshalValue x, marshalList xs with
    | .ok t, .ok ts => .ok (t :: ts)
    | .error e, _ => .error e
    | .ok _, .error e => .error e
/-- The keys of a map with the texts of their values. -/
def marshalMembers : List (String × GoValue) → Except String (List (String × String))
  | [] => .ok []
  | (k, v) :: rest =>
    match marshalValue v, marshalMembers rest with
    | .ok t, .ok ts => .ok ((k, t) :: ts)
    | .error e, _ => .error e
    | .ok _, .error e => .error e
end

/-- The call `json.Marshal` on a `map[string]interface{}` that is not nil (the
handler's map is never nil where it is printed). -/
def jsonMarshalMap (m : GoMap) : Except String String := marshalValue (.map m)

/-- The code points `unicode.IsSpace` accepts. -/
def isSpace (c : Char) : Bool :=
  c = '\t' || c = '\n' || c.toNat = 0x0B || c.toNat = 0x0C || c = '\r' || c = ' ' ||
    c.toNat = 0x85 || c.toNat = 0xA0 || c.toNat = 0x1680 ||
    (0x2000 ≤ c.toNat && c.toNat ≤ 0x200A) || c.toNat = 0x2028 || c.toNat = 0x2029 ||
    c.toNat = 0x202F || c.toNat = 0x205F || c.toNat = 0x3000

/-- The call `strings.TrimSpace`: the text without the white space at its
two ends. -/
def trimSpace (s : String) : String :=
  ⟨((s.data.dropWhile isSpace).reverse.dropWhile isSpace).reverse⟩

/-- The table lookup behind the JSON scanner of the sample environment. -/
def lookupDoc (docs : List (String × Json)) (body : String) : Except String Json :=
  match docs with
  | [] => .error "invalid character looking for beginning of value"
  | (text, doc) :: rest => if text = body then .ok doc else lookupDoc rest body

/-- An environment around the sample key: reading `public_key.pem` gives
`keyFile`, the PEM and X.509 parsers know the sample key only, the hash, the
signature check, the number conversion and the JSON printer are the real ones,
a request body is scanned as the table `docs` says (a text not listed is not
JSON), every method and URL is accepted, header names are already canonical,
and the upstream answers `upstream`. -/
def sampleEnv (keyFile : Except String String) (docs : List (String × Json))
    (upstream : Except String UpstreamResponse) : Env :=
  { readFile := fun path =>
      if path = "public_key.pem" then keyFile
      else .error ("open " ++ path ++ ": no such file or directory")
    trimSpace := trimSpace
    pemDecode := fun text =>
      if text = trimSpace samplePEM then some { type := "PUBLIC KEY", bytes := sampleDER } else none
    parsePKIXPublicKey := fun der =>
      if der = sampleDER then .ok (.rsa sampleKey)
      else .error "asn1: structure error"
    sha256 := fun s => sha256 (utf8Bytes s)
    verifyPKCS1v15 := rsaVerifyPKCS1v15
    jsonScan := lookupDoc docs
    parseFloat := parseFloat64
    jsonMarshal := jsonMarshalMap
    validMethod := fun _ => true
    urlParseError := fun _ => none
    canonicalMIMEHeaderKey := fun name => name
    clientDo := fun _ => upstream }

/-- The body of a sample request with signature text `sec` and the number
literal `amount`: an object with the members `sec`, `secval` and `amount`. -/
def bodyWith (sec amount : String) : String :=
  "\x7b\"sec\":\"" ++ sec ++ "\",\"secval\":\"1000|order123\",\"amount\":" ++ amount ++ "\x7d"

/-- The value the text `bodyWith sec amount` spells. -/
def jsonWith (sec amount : String) : Json :=
  .object [("sec", .string sec), ("secval", .string sampleSecval), ("amount", .number amount)]

/-- The body of the sample request with signature text `sec`:
an object with the members `sec`, `secval` and `amount`, the amount 1000. -/
def payBody (sec : String) : String := bodyWith sec "1000"

/-- The members of `payBody sec` as the decoder yields them; the number 1000
is the `float64` with bit pattern `0x408F400000000000`. -/
def payMembers (sec : String) : List (String × GoValue) :=
  [("sec", .string sec), ("secval", .string sampleSecval), ("amount", .float64 0x408F400000000000)]

/-- The sample request with the amount 9007199254740993, which is
`2 ^ 53 + 1` and not a float64. -/
def bigBody : String := bodyWith sampleSec "9007199254740993"

/-- The request bodies of the examples and the values they spell. -/
def sampleDocs : List (String × Json) :=
  [(payBody sampleSec, jsonWith sampleSec "1000"),
   (payBody tamperedSec, jsonWith tamperedSec "1000"),
   (payBody brokenSec, jsonWith brokenSec "1000"),
   (payBody "!!!!", jsonWith "!!!!" "1000"),
   (bigBody, jsonWith sampleSec "9007199254740993"),
   (bodyWith sampleSec "1e400", jsonWith sampleSec "1e400"),
   ("\x7b\"sec\":\"\",\"secval\":\"\"\x7d", .object [("sec", .string ""), ("secval", .string "")]),
   ("\x7b\"sec\":5,\"secval\":\"\"\x7d", .object [("sec", .number "5"), ("secval", .string "")]),
   ("\x7b\"secval\":\"\"\x7d", .object [("secval", .string "")]),
   ("[1,2]", .array [.number "1", .number "2"]),
   ("null", .null)]

/-- An upstream answer with the given status. -/
def upstreamAnswer (status : Nat) : UpstreamResponse :=
  { statusCode := status
    header := [("Content-Type", ["application/json"])]
    body := "\x7b\"ok\":true\x7d"
    copyFailed := false }

/-- The sample environment with the key file in place and an upstream that
answers with `status`. -/
def payEnv (status : Nat) : Env :=
  sampleEnv (.ok samplePEM) sampleDocs (.ok (upstreamAnswer status))

/-- The request `POST /pay/request` with the given body and two inbound
headers, one of them custom with two values. -/
def payRequest (body : String) : Request :=
  { method := "POST"
    path := "/pay/request"
    rawQuery := ""
    header := [("Content-Type", ["application/json"]), ("X-Trace-Id", ["a1", "b2"])]
    body := .ok body }

/-- The request the upstream receives for `payRequest`. -/
def payOutbound : OutboundRequest :=
  { method := "POST"
    url := "https://sep.shaparak.ir/pay/request"
    header := [("X-Trace-Id", ["a1", "b2"])]
    body := "\x7b\"amount\":1000\x7d" }

/-- The sample request with the raw query `ref=7`. -/
def queryRequest : Request :=
  { method := "POST"
    path := "/pay/request"
    rawQuery := "ref=7"
    header := [("Content-Type", ["application/json"]), ("X-Trace-Id", ["a1", "b2"])]
    body := .ok (payBody sampleSec) }

/-- The request the upstream receives for `queryRequest`. -/
def queryOutbound : OutboundRequest :=
  { method := "POST"
    url := "https://sep.shaparak.ir/pay/request?ref=7"
    header := [("X-Trace-Id", ["a1", "b2"])]
    body := "\x7b\"amount\":1000\x7d" }

/-- The sample environment without the key file: `os.ReadFile` fails with the
error of the operating system. -/
def noKeyFileEnv : Env :=
  sampleEnv (.error "open public_key.pem: no such file or directory") sampleDocs (.error "")

/-- The sample environment with a key file that holds no PEM block. -/
def emptyKeyFileEnv : Env :=
  sampleEnv (.ok "not a key") sampleDocs (.error "")

/-! ## Maps -/

theorem GoMap.get_set (m : GoMap) (k k' : String) (v : GoValue) :
    GoMap.get (GoMap.set m k v) k' = if k = k' then some v else GoMap.get m k' := by
  induction m with
  | nil => simp [GoMap.set, GoMap.get]
  | cons kv rest ih =>
    obtain ⟨a, b⟩ := kv
    by_cases hak : a = k
    · subst hak
      by_cases h : a = k' <;> simp [GoMap.set, GoMap.get, h]
    · by_cases h : a = k'
      · subst h
        have hne : ¬ k = a := fun h' => hak h'.symm
        simp [GoMap.set, GoMap.get, hak, hne]
      · simp [GoMap.set, GoMap.get, hak, h, ih]

theorem GoMap.get_foldl_set (members : List (String × GoValue)) (m : GoMap) (k : String) :
    GoMap.get (members.foldl (fun m kv => GoMap.set m kv.1 kv.2) m) k =
      match memberValue members k with
      | some w => some w
      | none => GoMap.get m k := by
  induction members generalizing m with
  | nil => simp [memberValue]
  | cons kv rest ih =>
    obtain ⟨a, b⟩ := kv
    simp only [List.foldl_cons, ih, memberValue, GoMap.get_set]
    cases memberValue rest k with
    | some w => rfl
    | none => by_cases h : a = k <;> simp [h]

theorem GoMap.get_fromMembers (members : List (String × GoValue)) (k : String) :
    GoMap.get (fromMembers members) k = memberValue members k := by
  unfold fromMembers
  rw [GoMap.get_foldl_set]
  cases memberValue members k <;> simp [GoMap.get]

theorem GoMap.delete_cons (kv : String × GoValue) (rest : GoMap) (k : String) :
    GoMap.delete (kv :: rest) k =
      if kv.1 = k then GoMap.delete rest k else kv :: GoMap.delete rest k := by
  by_cases h : kv.1 = k <;> simp [GoMap.delete, h]

theorem GoMap.get_delete (m : GoMap) (k k' : String) :
    GoMap.get (GoMap.delete m k) k' = if k = k' then none else GoMap.get m k' := by
  induction m with
  | nil => simp [GoMap.delete, GoMap.get]
  | cons kv rest ih =>
    obtain ⟨a, b⟩ := kv
    by_cases hak : a = k
    · subst hak
      by_cases h : a = k'
      · subst h
        simpa [GoMap.delete_cons] using ih
      · simp [GoMap.delete_cons, GoMap.get, h, ih]
    · by_cases h : a = k'
      · subst h
        have hne : ¬ k = a := fun h' => hak h'.symm
        simp [GoMap.delete_cons, GoMap.get, hak, hne]
      · simp [GoMap.delete_cons, GoMap.get, hak, h, ih]

theorem get_sanitized (data : GoMap) (k : String) :
    GoMap.get (sanitized data) k =
      if k = "sec" ∨ k = "secval" then none else GoMap.get data k := by
  unfold sanitized
  rw [GoMap.get_delete, GoMap.get_delete]
  by_cases h1 : k = "sec"
  · subst h1; simp
  · by_cases h2 : k = "secval"
    · subst h2; simp
    · have h1' : ¬ "sec" = k := fun h => h1 h.symm
      have h2' : ¬ "secval" = k := fun h => h2 h.symm
      simp [h1, h2, h1', h2']

theorem GoMap.delete_set_same (m : GoMap) (k : String) (v : GoValue) :
    GoMap.delete (GoMap.set m k v) k = GoMap.delete m k := by
  induction m with
  | nil => simp [GoMap.set, GoMap.delete]
  | cons kv rest ih =>
    obtain ⟨a, b⟩ := kv
    by_cases hak : a = k
    · subst hak
      simp [GoMap.set, GoMap.delete_cons]
    · simp [GoMap.set, hak, GoMap.delete_cons, ih]

theorem GoMap.delete_set_ne (m : GoMap) (k k' : String) (v : GoValue) (h : k' ≠ k) :
    GoMap.delete (GoMap.set m k' v) k = GoMap.set (GoMap.delete m k) k' v := by
  induction m with
  | nil => simp [GoMap.set, GoMap.delete_cons, h, GoMap.delete]
  | cons kv rest ih =>
    obtain ⟨a, b⟩ := kv
    by_cases hak' : a = k'
    · subst hak'
      simp [GoMap.set, GoMap.delete_cons, h]
    · by_cases hak : a = k
      · subst hak
        simp [GoMap.set, hak', GoMap.delete_cons, ih]
      · simp [GoMap.set, hak', hak, GoMap.delete_cons, ih]

theorem GoMap.delete_foldl_set (members : List (String × GoValue)) (m : GoMap) (k : String) :
    GoMap.delete (members.foldl (fun m kv => GoMap.set m kv.1 kv.2) m) k =
      (members.filter (fun kv => decide (kv.1 ≠ k))).foldl
        (fun m kv => GoMap.set m kv.1 kv.2) (GoMap.delete m k) := by
  induction members generalizing m with
  | nil => simp
  | cons kv rest ih =>
    obtain ⟨a, b⟩ := kv
    by_cases hak : a = k
    · subst hak
      rw [List.foldl_cons, ih, GoMap.delete_set_same, List.filter_cons_of_neg (by simp)]
    · rw [List.foldl_cons, ih, GoMap.delete_set_ne _ _ _ _ hak,
        List.filter_cons_of_pos (by simpa using hak), List.foldl_cons]

theorem filter_withSec (members : List (String × GoValue)) (s : String) :
    (withSec members s).filter (fun kv => decide (kv.1 ≠ "sec")) =
      members.filter (fun kv => decide (kv.1 ≠ "sec")) := by
  induction members with
  | nil => simp [withSec]
  | cons kv rest ih =>
    obtain ⟨a, b⟩ := kv
    unfold withSec at ih ⊢
    by_cases h : a = "sec"
    · subst h; simpa using ih
    · simpa [h] using ih

theorem sanitized_withSec (members : List (String × GoValue)) (s : String) :
    sanitized (fromMembers (withSec members s)) = sanitized (fromMembers members) := by
  have h : GoMap.delete (fromMembers (withSec members s)) "sec" =
      GoMap.delete (fromMembers members) "sec" := by
    unfold fromMembers
    rw [GoMap.delete_foldl_set, GoMap.delete_foldl_set, filter_withSec]
  unfold sanitized
  rw [h]

theorem memberValue_withSec_sec (members : List (String × GoValue)) (s : String) :
    memberValue (withSec members s) "sec" =
      (memberValue members "sec").map (fun _ => GoValue.string s) := by
  induction members with
  | nil => simp [withSec, memberValue]
  | cons kv rest ih =>
    obtain ⟨a, b⟩ := kv
    unfold withSec at ih ⊢
    by_cases h : a = "sec"
    · subst h
      rw [List.map_cons, if_pos rfl]
      simp only [memberValue, ih, if_true]
      cases memberValue rest "sec" <;> simp
    · rw [List.map_cons, if_neg h]
      simp only [memberValue, ih, if_neg h]
      cases memberValue rest "sec" <;> simp

theorem memberValue_withSec_ne (members : List (String × GoValue)) (s k : String)
    (hk : k ≠ "sec") : memberValue (withSec members s) k = memberValue members k := by
  induction members with
  | nil => simp [withSec, memberValue]
  | cons kv rest ih =>
    obtain ⟨a, b⟩ := kv
    unfold withSec at ih ⊢
    by_cases h : a = "sec"
    · subst h
      have hne : ¬ "sec" = k := fun h' => hk h'.symm
      rw [List.map_cons, if_pos rfl]
      simp only [memberValue, ih, if_neg hne]
    · rw [List.map_cons, if_neg h]
      simp only [memberValue, ih]

/-! ## Decoding -/

theorem toInterfaceMembers_cons (E : Env) (k : String) (v : Json) (rest : List (String × Json))
    (decoded : List (String × GoValue))
    (h : toInterfaceMembers E ((k, v) :: rest) = .ok decoded) :
    ∃ g gs, toInterface E v = .ok g ∧ toInterfaceMembers E rest = .ok gs ∧
      decoded = (k, g) :: gs := by
  rw [toInterfaceMembers] at h
  cases hv : toInterface E v with
  | error e => simp [hv] at h
  | ok g =>
    cases hr : toInterfaceMembers E rest with
    | error e => simp [hv, hr] at h
    | ok gs =>
      simp only [hv, hr] at h
      injection h with h
      exact ⟨g, gs, rfl, rfl, h.symm⟩

/-- The decoded members hold, under every key, the decoded value of the
member of the text. -/
theorem toInterfaceMembers_memberValue (E : Env) (members : List (String × Json))
    (decoded : List (String × GoValue)) (h : toInterfaceMembers E members = .ok decoded)
    (k : String) :
    (memberValue decoded k).map Except.ok = (memberValue members k).map (toInterface E) := by
  induction members generalizing decoded with
  | nil =>
    rw [toInterfaceMembers] at h
    injection h with h
    subst h
    rfl
  | cons kv rest ih =>
    obtain ⟨a, v⟩ := kv
    obtain ⟨g, gs, hv, hr, hd⟩ := toInterfaceMembers_cons E a v rest decoded h
    subst hd
    have ih' := ih gs hr
    simp only [memberValue]
    cases hm : memberValue rest k with
    | some w =>
      rw [hm] at ih'
      cases hg : memberValue gs k with
      | none => rw [hg] at ih'; simp at ih'
      | some w' => rw [hg] at ih'; simpa using ih'
    | none =>
      rw [hm] at ih'
      cases hg : memberValue gs k with
      | some w' => rw [hg] at ih'; simp at ih'
      | none =>
        by_cases hak : a = k
        · simp [hak, hv]
        · simp [hak]

theorem toInterfaceMembers_string (E : Env) (members : List (String × Json))
    (decoded : List (String × GoValue)) (h : toInterfaceMembers E members = .ok decoded)
    (k s : String) (hk : memberValue members k = some (.string s)) :
    memberValue decoded k = some (.string s) := by
  have := toInterfaceMembers_memberValue E members decoded h k
  rw [hk] at this
  cases hd : memberValue decoded k with
  | none => rw [hd] at this; simp at this
  | some g =>
    rw [hd] at this
    simp only [Option.map_some', toInterface, Option.some.injEq] at this
    injection this with this
    rw [this]

theorem jsonDecode_object (E : Env) (body : String) (members : List (String × Json))
    (decoded : List (String × GoValue))
    (hscan : E.jsonScan body = .ok (.object members))
    (hdec : toInterfaceMembers E members = .ok decoded) :
    E.jsonDecode body = .ok (.object decoded) := by
  simp [Env.jsonDecode, hscan, hdec]

theorem jsonDecode_object_error (E : Env) (body : String) (members : List (String × Json))
    (err : String)
    (hscan : E.jsonScan body = .ok (.object members))
    (hdec : toInterfaceMembers E members = .error err) :
    E.jsonDecode body = .error err := by
  simp [Env.jsonDecode, hscan, hdec]

/-! ## Printing -/

/-- The printer of a map's members gives one text per member, under the
member's key: the serialisation of the member's value. -/
theorem marshalMembers_parts (kvs : List (String × GoValue)) (parts : List (String × String))
    (h : marshalMembers kvs = .ok parts) :
    List.Forall₂ (fun (kv : String × GoValue) (p : String × String) =>
      p.1 = kv.1 ∧ marshalValue kv.2 = .ok p.2) kvs parts := by
  induction kvs generalizing parts with
  | nil =>
    rw [marshalMembers] at h
    injection h with h
    subst h
    exact List.Forall₂.nil
  | cons kv rest ih =>
    obtain ⟨k, v⟩ := kv
    rw [marshalMembers] at h
    cases hv : marshalValue v with
    | error e => simp [hv] at h
    | ok t =>
      cases hr : marshalMembers rest with
      | error e => simp [hv, hr] at h
      | ok ts =>
        simp only [hv, hr] at h
        injection h with h
        subst h
        exact List.Forall₂.cons ⟨rfl, hv⟩ (ih ts hr)

/-- The text `json.Marshal` gives for a map: the members sorted by key, each
the quoted key, a colon and the text of the value, between braces. -/
theorem jsonMarshalMap_ok (m : GoMap) (text : String) (h : jsonMarshalMap m = .ok text) :
    ∃ parts : List (String × String),
      List.Forall₂ (fun (kv : String × GoValue) (p : String × String) =>
        p.1 = kv.1 ∧ marshalValue kv.2 = .ok p.2) m parts ∧
      text = "\x7b" ++ commaJoin ((sortMembers parts).map (fun kv => quote kv.1 ++ ":" ++ kv.2))
        ++ "\x7d" := by
  rw [jsonMarshalMap, marshalValue] at h
  cases hm : marshalMembers m with
  | error e => simp [hm] at h
  | ok parts =>
    simp only [hm] at h
    injection h with h
    exact ⟨parts, marshalMembers_parts m parts hm, h.symm⟩

/-! ## Headers -/

theorem Header.values_append (h : Header) (k v k' : String) :
    Header.values (Header.append h k v) k' =
      if k = k' then Header.values h k' ++ [v] else Header.values h k' := by
  induction h with
  | nil =>
    by_cases hk : k = k' <;> simp [Header.append, Header.values, Header.get, hk]
  | cons kv rest ih =>
    obtain ⟨a, vs⟩ := kv
    unfold Header.values at ih ⊢
    by_cases hak : a = k
    · subst hak
      by_cases h : a = k' <;> simp [Header.append, Header.get, h]
    · by_cases h : a = k'
      · subst h
        have hne : ¬ k = a := fun h' => hak h'.symm
        simp [Header.append, Header.get, hak, hne]
      · simp only [Header.append, if_neg hak, Header.get, if_neg h]
        exact ih

theorem Header.mem_keys_append (h : Header) (k v k' : String) :
    k' ∈ (Header.append h k v).map Prod.fst ↔ k' = k ∨ k' ∈ h.map Prod.fst := by
  induction h with
  | nil => simp [Header.append]
  | cons kv rest ih =>
    obtain ⟨a, vs⟩ := kv
    by_cases hak : a = k
    · subst hak
      simp [Header.append]
    · simp only [Header.append, if_neg hak, List.map_cons, List.mem_cons, ih]
      tauto

theorem values_addValues (E : Env) (values : List String) (h : Header) (name k : String) :
    Header.values (addValues E h name values) k =
      if E.canonicalMIMEHeaderKey name = k then Header.values h k ++ values
      else Header.values h k := by
  induction values generalizing h with
  | nil => simp [addValues]
  | cons v rest ih =>
    unfold addValues at ih ⊢
    rw [List.foldl_cons, ih, Header.add, Header.values_append]
    by_cases hk : E.canonicalMIMEHeaderKey name = k <;> simp [hk]

theorem mem_keys_addValues (E : Env) (values : List String) (h : Header) (name k : String)
    (hk : k ∈ (addValues E h name values).map Prod.fst) :
    k = E.canonicalMIMEHeaderKey name ∨ k ∈ h.map Prod.fst := by
  induction values generalizing h with
  | nil => exact Or.inr hk
  | cons v rest ih =>
    unfold addValues at ih hk
    rw [List.foldl_cons] at hk
    rcases ih _ hk with h1 | h1
    · exact Or.inl h1
    · rw [Header.add, Header.mem_keys_append] at h1
      exact h1

/-- The values of a name after the forwarding loop: those already there, then
the values of every forwardable inbound entry whose canonical name it is. -/
theorem values_forwardHeaders (E : Env) (inbound : Header) (out : Header) (k : String) :
    Header.values (forwardHeaders E inbound out) k =
      Header.values out k ++
        (inbound.filter (fun nv =>
          isForwardableHeader nv.1 && decide (E.canonicalMIMEHeaderKey nv.1 = k))).flatMap
          Prod.snd := by
  induction inbound generalizing out with
  | nil => simp [forwardHeaders]
  | cons nv rest ih =>
    unfold forwardHeaders at ih ⊢
    rw [List.foldl_cons, ih]
    by_cases hf : isForwardableHeader nv.1 = false
    · simp [hf]
    · have hf' : isForwardableHeader nv.1 = true := by
        cases h : isForwardableHeader nv.1 <;> simp_all
      rw [if_neg hf, values_addValues]
      by_cases hk : E.canonicalMIMEHeaderKey nv.1 = k <;> simp [hk, hf']

theorem mem_keys_forwardHeaders (E : Env) (inbound : Header) (out : Header) (k : String)
    (hk : k ∈ (forwardHeaders E inbound out).map Prod.fst) :
    k ∈ out.map Prod.fst ∨
      ∃ nv ∈ inbound, isForwardableHeader nv.1 = true ∧ E.canonicalMIMEHeaderKey nv.1 = k := by
  induction inbound generalizing out with
  | nil => exact Or.inl hk
  | cons nv rest ih =>
    unfold forwardHeaders at ih hk
    rw [List.foldl_cons] at hk
    rcases ih _ hk with h1 | ⟨nv', hmem, hf, hc⟩
    · by_cases hf : isForwardableHeader nv.1 = false
      · rw [if_pos hf] at h1
        exact Or.inl h1
      · rw [if_neg hf] at h1
        rcases mem_keys_addValues E _ _ _ _ h1 with h2 | h2
        · refine Or.inr ⟨nv, List.mem_cons_self _ _, ?_, h2.symm⟩
          cases h : isForwardableHeader nv.1 <;> simp_all
        · exact Or.inl h2
    · exact Or.inr ⟨nv', List.mem_cons_of_mem _ hmem, hf, hc⟩

/-- In a header without repeated names, the entries with a given name are the
one entry of that name. -/
theorem filter_name_eq (h : Header) (name : String) (values : List String)
    (p : String → Bool) (hp : p name = true)
    (hnodup : (h.map Prod.fst).Nodup) (hmem : (name, values) ∈ h) :
    (h.filter (fun nv => p nv.1 && decide (nv.1 = name))).flatMap Prod.snd = values := by
  induction h with
  | nil => cases hmem
  | cons kv rest ih =>
    obtain ⟨a, vs⟩ := kv
    rw [List.map_cons, List.nodup_cons] at hnodup
    rcases List.mem_cons.mp hmem with heq | hin
    · injection heq with h1 h2
      subst h1 h2
      have hrest : rest.filter (fun nv => p nv.1 && decide (nv.1 = name)) = [] := by
        rw [List.filter_eq_nil_iff]
        intro nv hnv hq
        simp only [Bool.and_eq_true, decide_eq_true_eq] at hq
        exact hnodup.1 (List.mem_map.mpr ⟨nv, hnv, hq.2⟩)
      simp [hp, hrest]
    · have hne : a ≠ name := by
        intro h
        subst h
        exact hnodup.1 (List.mem_map.mpr ⟨(a, values), hin, rfl⟩)
      simp only [List.filter_cons, hne, decide_False, Bool.and_false]
      exact ih hnodup.2 hin

theorem toLower_eq_x (c : Char) : c.toLower = 'x' ↔ c = 'x' ∨ c = 'X' := by
  constructor
  · intro h
    unfold Char.toLower at h
    by_cases hr : c.toNat ≥ 65 ∧ c.toNat ≤ 90
    · have hc : c = Char.ofNat c.toNat := (Char.ofNat_toNat c).symm
      obtain ⟨h1, h2⟩ := hr
      generalize c.toNat = n at h h1 h2 hc
      subst hc
      right
      interval_cases n <;> first | rfl | (exfalso; revert h; decide)
    · simp only [hr, if_false] at h
      exact Or.inl h
  · rintro (h | h) <;> subst h <;> decide

theorem toLower_eq_dash (c : Char) : c.toLower = '-' ↔ c = '-' := by
  constructor
  · intro h
    unfold Char.toLower at h
    by_cases hr : c.toNat ≥ 65 ∧ c.toNat ≤ 90
    · have hc : c = Char.ofNat c.toNat := (Char.ofNat_toNat c).symm
      obtain ⟨h1, h2⟩ := hr
      generalize c.toNat = n at h h1 h2 hc
      subst hc
      exfalso
      interval_cases n <;> (revert h; decide)
    · simp only [hr, if_false] at h
      exact h
  · rintro h; subst h; decide

/-- The test of the code, `strings.HasPrefix(strings.ToLower(name), "x-")`,
holds exactly for the names that begin with `x-` or `X-`. -/
theorem isForwardableHeader_iff (name : String) :
    isForwardableHeader name = true ↔ BeginsWithXDash name := by
  unfold isForwardableHeader hasPrefix toLower BeginsWithXDash
  have hx : ("x-" : String).data = ['x', '-'] := rfl
  rw [hx]
  match hdata : name.data with
  | [] => simp [List.isPrefixOf]
  | [c] => simp [List.isPrefixOf]
  | c :: d :: rest =>
    simp only [List.map_cons, List.isPrefixOf, Bool.and_eq_true, beq_iff_eq, List.cons.injEq]
    constructor
    · rintro ⟨h1, h2, _⟩
      exact ⟨c, rest, ⟨rfl, (toLower_eq_dash d).mp h2.symm, rfl⟩, (toLower_eq_x c).mp h1.symm⟩
    · rintro ⟨c', rest', ⟨h1, h2, _⟩, h4⟩
      subst h1 h2
      exact ⟨((toLower_eq_x c).mpr h4).symm, ((toLower_eq_dash '-').mpr rfl).symm, trivial⟩

/-! ## The handler, stage by stage -/

theorem proxyHandler_keyError (E : Env) (r : Request) (err : String)
    (hkey : loadPublicKey E publicKeyPath = .error err) :
    proxyHandler E r =
      ⟨[], httpError ("Public key error: " ++ err) StatusInternalServerError⟩ := by
  simp only [proxyHandler, hkey]

theorem proxyHandler_readError (E : Env) (r : Request) (key : RSAPublicKey) (err : String)
    (hkey : loadPublicKey E publicKeyPath = .ok key) (hbody : r.body = .error err) :
    proxyHandler E r =
      ⟨[], httpError "Error reading request body" StatusInternalServerError⟩ := by
  simp only [proxyHandler, hkey, hbody]

theorem proxyHandler_jsonError (E : Env) (r : Request) (key : RSAPublicKey)
    (body err : String)
    (hkey : loadPublicKey E publicKeyPath = .ok key) (hbody : r.body = .ok body)
    (hjson : jsonUnmarshal E body = .error err) :
    proxyHandler E r = ⟨[], httpError "Invalid JSON" StatusBadRequest⟩ := by
  simp only [proxyHandler, hkey, hbody, hjson]

theorem proxyHandler_notStrings (E : Env) (r : Request) (key : RSAPublicKey)
    (body : String) (data : GoMap)
    (hkey : loadPublicKey E publicKeyPath = .ok key) (hbody : r.body = .ok body)
    (hjson : jsonUnmarshal E body = .ok data)
    (hty : (assertString (data.get "sec")).2 = false ∨
      (assertString (data.get "secval")).2 = false) :
    proxyHandler E r = ⟨[], httpError "sec and secval must be strings" StatusBadRequest⟩ := by
  simp only [proxyHandler, hkey, hbody, hjson]
  rw [if_pos hty]

theorem proxyHandler_empty (E : Env) (r : Request) (key : RSAPublicKey)
    (body : String) (data : GoMap)
    (hkey : loadPublicKey E publicKeyPath = .ok key) (hbody : r.body = .ok body)
    (hjson : jsonUnmarshal E body = .ok data)
    (hsec : (assertString (data.get "sec")).2 = true)
    (hsecval : (assertString (data.get "secval")).2 = true)
    (hempty : (assertString (data.get "sec")).1 = "" ∨
      (assertString (data.get "secval")).1 = "") :
    proxyHandler E r = ⟨[], httpError "" StatusNotFound⟩ := by
  simp only [proxyHandler, hkey, hbody, hjson]
  rw [if_neg (by simp [hsec, hsecval]), if_pos hempty]

theorem proxyHandler_badSignature (E : Env) (r : Request) (key : RSAPublicKey)
    (data : GoMap) (sec secval err : String) (h : Checked E r key data sec secval)
    (hv : verifySignature E key secval sec = .error err) :
    proxyHandler E r =
      ⟨[.verify key secval sec],
        httpError "Signature verification failed" StatusUnauthorized⟩ := by
  obtain ⟨body, hb, hj⟩ := h.hbody
  simp only [proxyHandler, h.hkey, hb, hj, h.hsec, h.hsecval, assertString]
  simp [h.hsecNe, h.hsecvalNe, hv]

theorem proxyHandler_marshalError (E : Env) (r : Request) (key : RSAPublicKey)
    (data : GoMap) (sec secval err : String) (h : Checked E r key data sec secval)
    (hv : verifySignature E key secval sec = .ok ())
    (hm : E.jsonMarshal (sanitized data) = .error err) :
    proxyHandler E r =
      ⟨[.verify key secval sec],
        httpError "Error generating modified body" StatusInternalServerError⟩ := by
  obtain ⟨body, hb, hj⟩ := h.hbody
  simp only [proxyHandler, h.hkey, hb, hj, h.hsec, h.hsecval, assertString]
  simp only [sanitized] at hm
  simp [h.hsecNe, h.hsecvalNe, hv, hm]

theorem proxyHandler_newRequestError (E : Env) (r : Request) (key : RSAPublicKey)
    (data : GoMap) (sec secval modifiedBody err : String)
    (h : Checked E r key data sec secval)
    (hv : verifySignature E key secval sec = .ok ())
    (hm : E.jsonMarshal (sanitized data) = .ok modifiedBody)
    (hn : outbound E r modifiedBody = .error err) :
    proxyHandler E r =
      ⟨[.verify key secval sec],
        httpError "Failed to create request" StatusInternalServerError⟩ := by
  obtain ⟨body, hb, hj⟩ := h.hbody
  simp only [proxyHandler, h.hkey, hb, hj, h.hsec, h.hsecval, assertString]
  simp only [sanitized] at hm
  simp only [outbound] at hn
  split at hn
  · rename_i e he
    simp [h.hsecNe, h.hsecvalNe, hv, hm, he]
  · cases hn

theorem proxyHandler_unreachable (E : Env) (r : Request) (key : RSAPublicKey)
    (data : GoMap) (sec secval modifiedBody err : String) (req : OutboundRequest)
    (h : Checked E r key data sec secval)
    (hv : verifySignature E key secval sec = .ok ())
    (hm : E.jsonMarshal (sanitized data) = .ok modifiedBody)
    (hn : outbound E r modifiedBody = .ok req)
    (hd : E.clientDo req = .error err) :
    proxyHandler E r =
      ⟨[.verify key secval sec, .send req],
        httpError "Failed to reach target server" StatusBadGateway⟩ := by
  obtain ⟨body, hb, hj⟩ := h.hbody
  simp only [proxyHandler, h.hkey, hb, hj, h.hsec, h.hsecval, assertString]
  simp only [sanitized] at hm
  simp only [outbound] at hn
  split at hn
  · cases hn
  · rename_i req0 he
    injection hn with hn
    subst hn
    simp [h.hsecNe, h.hsecvalNe, hv, hm, he, hd]

theorem proxyHandler_relayed (E : Env) (r : Request) (key : RSAPublicKey)
    (data : GoMap) (sec secval modifiedBody : String) (req : OutboundRequest)
    (resp : UpstreamResponse)
    (h : Checked E r key data sec secval)
    (hv : verifySignature E key secval sec = .ok ())
    (hm : E.jsonMarshal (sanitized data) = .ok modifiedBody)
    (hn : outbound E r modifiedBody = .ok req)
    (hd : E.clientDo req = .ok resp) :
    proxyHandler E r = ⟨[.verify key secval sec, .send req], relay E resp⟩ := by
  obtain ⟨body, hb, hj⟩ := h.hbody
  simp only [proxyHandler, h.hkey, hb, hj, h.hsec, h.hsecval, assertString]
  simp only [sanitized] at hm
  simp only [outbound] at hn
  split at hn
  · cases hn
  · rename_i req0 he
    injection hn with hn
    subst hn
    simp [h.hsecNe, h.hsecvalNe, hv, hm, he, hd]

theorem assertString_true (o : Option GoValue) (h : (assertString o).2 = true) :
    ∃ s, o = some (.string s) ∧ (assertString o).1 = s := by
  match o, h with
  | some (.string s), _ => exact ⟨s, rfl, rfl⟩

theorem assertString_false (o : Option GoValue) :
    (assertString o).2 = false ↔ ¬ ∃ s, o = some (.string s) := by
  constructor
  · intro h ⟨s, hs⟩
    subst hs
    simp [assertString] at h
  · intro h
    match o, h with
    | none, _ => rfl
    | some .nil, _ => rfl
    | some (.bool _), _ => rfl
    | some (.float64 _), _ => rfl
    | some (.slice _), _ => rfl
    | some (.map _), _ => rfl
    | some (.string s), h => exact absurd ⟨s, rfl⟩ h

/-- Every run of the handler ends in one of the ten ways of `Stage`. -/
theorem proxyHandler_stage (E : Env) (r : Request) : Stage E r (proxyHandler E r) := by
  cases hkey : loadPublicKey E publicKeyPath with
  | error err => rw [proxyHandler_keyError E r err hkey]; exact .keyError err hkey
  | ok key =>
  cases hbody : r.body with
  | error err => rw [proxyHandler_readError E r key err hkey hbody]; exact .readError key err hkey hbody
  | ok body =>
  cases hjson : jsonUnmarshal E body with
  | error err =>
    rw [proxyHandler_jsonError E r key body err hkey hbody hjson]
    exact .jsonError key body err hkey hbody hjson
  | ok data =>
  by_cases hty : (assertString (data.get "sec")).2 = false ∨
      (assertString (data.get "secval")).2 = false
  · rw [proxyHandler_notStrings E r key body data hkey hbody hjson hty]
    exact .notStrings key body data hkey hbody hjson hty
  · have h1 : (assertString (data.get "sec")).2 = true := by
      cases h : (assertString (data.get "sec")).2 <;> simp_all
    have h2 : (assertString (data.get "secval")).2 = true := by
      cases h : (assertString (data.get "secval")).2 <;> simp_all
    obtain ⟨sec, hsec, hsec1⟩ := assertString_true _ h1
    obtain ⟨secval, hsecval, hsecval1⟩ := assertString_true _ h2
    by_cases hempty : sec = "" ∨ secval = ""
    · rw [proxyHandler_empty E r key body data hkey hbody hjson h1 h2
        (by rw [hsec1, hsecval1]; exact hempty)]
      exact .empty key body data sec secval hkey hbody hjson hsec hsecval hempty
    · have hc : Checked E r key data sec secval :=
        ⟨hkey, ⟨body, hbody, hjson⟩, hsec, hsecval, fun h => hempty (Or.inl h),
          fun h => hempty (Or.inr h)⟩
      cases hv : verifySignature E key secval sec with
      | error err =>
        rw [proxyHandler_badSignature E r key data sec secval err hc hv]
        exact .badSignature key data sec secval err hc hv
      | ok u =>
      cases u
      cases hm : E.jsonMarshal (sanitized data) with
      | error err =>
        rw [proxyHandler_marshalError E r key data sec secval err hc hv hm]
        exact .marshalError key data sec secval err hc hv hm
      | ok modifiedBody =>
      cases hn : outbound E r modifiedBody with
      | error err =>
        rw [proxyHandler_newRequestError E r key data sec secval modifiedBody err hc hv hm hn]
        exact .newRequestError key data sec secval modifiedBody err hc hv hm hn
      | ok req =>
      cases hd : E.clientDo req with
      | error err =>
        rw [proxyHandler_unreachable E r key data sec secval modifiedBody err req hc hv hm hn hd]
        exact .unreachable key data sec secval modifiedBody err req hc hv hm hn hd
      | ok resp =>
        rw [proxyHandler_relayed E r key data sec secval modifiedBody req resp hc hv hm hn hd]
        exact .relayed key data sec secval modifiedBody req resp hc hv hm hn hd

/-- A request handed to `client.Do` comes from a run in which every check
passed: it is the request built from the serialised sanitized map. -/
theorem sent_inv (E : Env) (r : Request) (req : OutboundRequest)
    (hsend : Event.send req ∈ (proxyHandler E r).trace) :
    ∃ key data sec secval modifiedBody, Checked E r key data sec secval ∧
      verifySignature E key secval sec = .ok () ∧
      E.jsonMarshal (sanitized data) = .ok modifiedBody ∧
      outbound E r modifiedBody = .ok req := by
  have hs := proxyHandler_stage E r
  generalize proxyHandler E r = o at hs hsend
  cases hs with
  | unreachable key data sec secval modifiedBody err req' h hv hm hn hd =>
    simp at hsend
    subst hsend
    exact ⟨key, data, sec, secval, modifiedBody, h, hv, hm, hn⟩
  | relayed key data sec secval modifiedBody req' resp h hv hm hn hd =>
    simp at hsend
    subst hsend
    exact ⟨key, data, sec, secval, modifiedBody, h, hv, hm, hn⟩
  | _ => simp at hsend

theorem checked_of_object (E : Env) (r : Request) (key : RSAPublicKey) (body : String)
    (members : List (String × GoValue)) (sec secval : String)
    (hkey : loadPublicKey E publicKeyPath = .ok key)
    (hbody : r.body = .ok body)
    (hdoc : E.jsonDecode body = .ok (.object members))
    (hsec : memberValue members "sec" = some (.string sec))
    (hsecval : memberValue members "secval" = some (.string secval))
    (hsecNe : sec ≠ "") (hsecvalNe : secval ≠ "") :
    Checked E r key (fromMembers members) sec secval :=
  ⟨hkey, ⟨body, hbody, by simp [jsonUnmarshal, hdoc]⟩,
    by rw [GoMap.get_fromMembers, hsec], by rw [GoMap.get_fromMembers, hsecval], hsecNe, hsecvalNe⟩

/-- Two runs that pass the same checks on the same data give the same answer. -/
theorem checked_determines (E : Env) (r : Request) (key key' : RSAPublicKey)
    (data data' : GoMap) (sec sec' secval secval' : String)
    (h : Checked E r key data sec secval) (h' : Checked E r key' data' sec' secval') :
    key = key' ∧ data = data' ∧ sec = sec' ∧ secval = secval' := by
  obtain ⟨b, hb, hj⟩ := h.hbody
  obtain ⟨b', hb', hj'⟩ := h'.hbody
  have hk : key = key' := by
    have := h.hkey.symm.trans h'.hkey
    injection this
  have hbb : b = b' := by
    have := hb.symm.trans hb'
    injection this
  subst hbb
  have hd : data = data' := by
    have := hj.symm.trans hj'
    injection this
  subst hd
  have hs : sec = sec' := by
    have := h.hsec.symm.trans h'.hsec
    injection this with this
    injection this
  have hsv : secval = secval' := by
    have := h.hsecval.symm.trans h'.hsecval
    injection this with this
    injection this
  exact ⟨hk, rfl, hs, hsv⟩

/-- What `outbound` returns when it returns a request. -/
theorem outbound_ok (E : Env) (r : Request) (modifiedBody : String) (req : OutboundRequest)
    (h : outbound E r modifiedBody = .ok req) :
    req = { method := if r.method = "" then "GET" else r.method
            url := targetURL r
            header := forwardHeaders E r.header []
            body := modifiedBody } := by
  unfold outbound newRequestWithContext at h
  by_cases hv : E.validMethod (if r.method = "" then "GET" else r.method) = false
  · simp [hv] at h
  · cases hu : E.urlParseError (targetURL r) with
    | some e => simp [hv, hu] at h
    | none =>
      simp [hv, hu] at h
      exact h.symm

/-- A run that passes the checks calls `verifySignature` first. -/
theorem checked_trace (E : Env) (r : Request) (key : RSAPublicKey) (data : GoMap)
    (sec secval : String) (h : Checked E r key data sec secval) :
    ∃ rest, (proxyHandler E r).trace = .verify key secval sec :: rest := by
  cases hv : verifySignature E key secval sec with
  | error err =>
    rw [proxyHandler_badSignature E r key data sec secval err h hv]; exact ⟨_, rfl⟩
  | ok u =>
  cases u
  cases hm : E.jsonMarshal (sanitized data) with
  | error err =>
    rw [proxyHandler_marshalError E r key data sec secval err h hv hm]; exact ⟨_, rfl⟩
  | ok modifiedBody =>
  cases hn : outbound E r modifiedBody with
  | error err =>
    rw [proxyHandler_newRequestError E r key data sec secval modifiedBody err h hv hm hn]
    exact ⟨_, rfl⟩
  | ok req =>
  cases hd : E.clientDo req with
  | error err =>
    rw [proxyHandler_unreachable E r key data sec secval modifiedBody err req h hv hm hn hd]
    exact ⟨_, rfl⟩
  | ok resp =>
    rw [proxyHandler_relayed E r key data sec secval modifiedBody req resp h hv hm hn hd]
    exact ⟨_, rfl⟩

/-- The type check fails on an object in which `sec` or `secval` is missing or
is not a string. -/
theorem proxyHandler_object_notStrings (E : Env) (r : Request) (key : RSAPublicKey)
    (body : String) (members : List (String × GoValue))
    (hkey : loadPublicKey E publicKeyPath = .ok key)
    (hbody : r.body = .ok body)
    (hdoc : E.jsonDecode body = .ok (.object members))
    (hty : (¬ ∃ s, memberValue members "sec" = some (.string s)) ∨
      (¬ ∃ s, memberValue members "secval" = some (.string s))) :
    proxyHandler E r = ⟨[], httpError "sec and secval must be strings" StatusBadRequest⟩ := by
  apply proxyHandler_notStrings E r key body (fromMembers members) hkey hbody
    (by simp [jsonUnmarshal, hdoc])
  rw [assertString_false, assertString_false, GoMap.get_fromMembers, GoMap.get_fromMembers]
  exact hty

/-- The emptiness check fails on an object in which both are strings and one
of them is empty. -/
theorem proxyHandler_object_empty (E : Env) (r : Request) (key : RSAPublicKey)
    (body : String) (members : List (String × GoValue)) (sec secval : String)
    (hkey : loadPublicKey E publicKeyPath = .ok key)
    (hbody : r.body = .ok body)
    (hdoc : E.jsonDecode body = .ok (.object members))
    (hsec : memberValue members "sec" = some (.string sec))
    (hsecval : memberValue members "secval" = some (.string secval))
    (hempty : sec = "" ∨ secval = "") :
    proxyHandler E r = ⟨[], httpError "" StatusNotFound⟩ := by
  apply proxyHandler_empty E r key body (fromMembers members) hkey hbody
    (by simp [jsonUnmarshal, hdoc])
  · rw [GoMap.get_fromMembers, hsec]; rfl
  · rw [GoMap.get_fromMembers, hsecval]; rfl
  · rw [GoMap.get_fromMembers, hsec, GoMap.get_fromMembers, hsecval]; exact hempty

/-- The signature text enters `verifySignature` through its decoded bytes only. -/
theorem verifySignature_congr (E : Env) (key : RSAPublicKey) (data s s' : String)
    (h : base64Decode s' = base64Decode s) :
    verifySignature E key data s' = verifySignature E key data s := by
  unfold verifySignature
  rw [h]

theorem verifySignature_malformed (E : Env) (key : RSAPublicKey) (data s : String)
    (h : base64Decode s = none) :
    ∃ err, verifySignature E key data s = .error err := by
  unfold verifySignature
  rw [h]
  exact ⟨_, rfl⟩

theorem verifySignature_rejected (E : Env) (key : RSAPublicKey) (data s : String)
    (sig : List Nat) (err : String) (h : base64Decode s = some sig)
    (hr : E.verifyPKCS1v15 key (E.sha256 data) sig = .error err) :
    ∃ err', verifySignature E key data s = .error err' := by
  unfold verifySignature
  rw [h]
  simp only [hr]
  exact ⟨_, rfl⟩

theorem verifySignature_passed (E : Env) (key : RSAPublicKey) (data s : String)
    (sig : List Nat) (u : Unit) (h : base64Decode s = some sig)
    (hr : E.verifyPKCS1v15 key (E.sha256 data) sig = .ok u) :
    verifySignature E key data s = .ok () := by
  unfold verifySignature
  rw [h]
  simp only [hr]

theorem oneCharChanged_ne_empty (s t : String) (h : OneCharChanged s t) : t ≠ "" := by
  intro ht
  subst ht
  obtain ⟨hlen, hch⟩ := h
  have hs : s.data = [] := List.length_eq_zero.mp (by simpa using hlen)
  rw [hs] at hch
  simp [charsChanged] at hch

/-- Two accepted requests that agree on the sanitized map and on method, path,
query and header are answered alike and lead to the same outbound request. -/
theorem accepted_alike (E : Env) (r r' : Request) (key : RSAPublicKey)
    (data data' : GoMap) (sec sec' secval : String)
    (h : Checked E r key data sec secval) (hv : verifySignature E key secval sec = .ok ())
    (h' : Checked E r' key data' sec' secval)
    (hv' : verifySignature E key secval sec' = .ok ())
    (hdata : sanitized data' = sanitized data)
    (hout : ∀ modifiedBody, outbound E r' modifiedBody = outbound E r modifiedBody) :
    (proxyHandler E r').response = (proxyHandler E r).response ∧
    ∀ req, Event.send req ∈ (proxyHandler E r').trace ↔
      Event.send req ∈ (proxyHandler E r).trace := by
  cases hm : E.jsonMarshal (sanitized data) with
  | error err =>
    rw [proxyHandler_marshalError E r key data sec secval err h hv hm,
      proxyHandler_marshalError E r' key data' sec' secval err h' hv' (by rw [hdata]; exact hm)]
    simp
  | ok modifiedBody =>
  cases hn : outbound E r modifiedBody with
  | error err =>
    rw [proxyHandler_newRequestError E r key data sec secval modifiedBody err h hv hm hn,
      proxyHandler_newRequestError E r' key data' sec' secval modifiedBody err h' hv'
        (by rw [hdata]; exact hm) (by rw [hout]; exact hn)]
    simp
  | ok req =>
  cases hd : E.clientDo req with
  | error err =>
    rw [proxyHandler_unreachable E r key data sec secval modifiedBody err req h hv hm hn hd,
      proxyHandler_unreachable E r' key data' sec' secval modifiedBody err req h' hv'
        (by rw [hdata]; exact hm) (by rw [hout]; exact hn) hd]
    simp
  | ok resp =>
    rw [proxyHandler_relayed E r key data sec secval modifiedBody req resp h hv hm hn hd,
      proxyHandler_relayed E r' key data' sec' secval modifiedBody req resp h' hv'
        (by rw [hdata]; exact hm) (by rw [hout]; exact hn) hd]
    simp

theorem verifySignature_ok_inv (E : Env) (key : RSAPublicKey) (data s : String)
    (h : verifySignature E key data s = .ok ()) :
    ∃ sig, base64Decode s = some sig ∧ E.verifyPKCS1v15 key (E.sha256 data) sig = .ok () := by
  unfold verifySignature at h
  cases hd : base64Decode s with
  | none => rw [hd] at h; cases h
  | some sig =>
    rw [hd] at h
    cases hr : E.verifyPKCS1v15 key (E.sha256 data) sig with
    | error e => simp only [hr] at h; cases h
    | ok u => exact ⟨sig, rfl, hr⟩

/-- The decoder yields bytes. -/
theorem decodeQuanta_isBytes (cs : List Char) (sig : List Nat)
    (h : decodeQuanta cs = some sig) : IsBytes sig := by
  induction cs using decodeQuanta.induct generalizing sig with
  | case1 =>
    simp only [decodeQuanta, Option.some.injEq] at h
    subst h
    intro b hb
    cases hb
  | case2 a b x y hy hx =>
    simp only [decodeQuanta, hx, hy, Option.some.injEq] at h
    subst h
    intro v hv
    simp only [List.mem_singleton] at hv
    subst hv
    exact Nat.mod_lt _ (by norm_num)
  | case3 a b hno =>
    exfalso
    cases hx : b64Value a with
    | none => simp [decodeQuanta, hx] at h
    | some x =>
      cases hy : b64Value b with
      | none => simp [decodeQuanta, hx, hy] at h
      | some y => exact hno x y hx hy
  | case4 a b c hne x y z hz hy hx =>
    rw [decodeQuanta] at h
    · simp only [hx, hy, hz, Option.some.injEq] at h
      subst h
      intro v hv
      simp only [List.mem_cons, List.mem_singleton, List.not_mem_nil, or_false] at hv
      rcases hv with hv | hv <;> subst hv <;> exact Nat.mod_lt _ (by norm_num)
    · exact hne
  | case5 a b c hne hno =>
    exfalso
    rw [decodeQuanta] at h
    · cases hx : b64Value a with
      | none => simp [hx] at h
      | some x =>
        cases hy : b64Value b with
        | none => simp [hx, hy] at h
        | some y =>
          cases hz : b64Value c with
          | none => simp [hx, hy, hz] at h
          | some z => exact hno x y z hx hy hz
    · exact hne
  | case6 a b c d rest h1 h2 x y z w tail ht hw hz hy hx ih =>
    rw [decodeQuanta] at h
    · simp only [hx, hy, hz, hw, ht, Option.some.injEq] at h
      subst h
      intro v hv
      simp only [List.mem_cons] at hv
      rcases hv with hv | hv | hv | hv
      · subst hv; exact Nat.mod_lt _ (by norm_num)
      · subst hv; exact Nat.mod_lt _ (by norm_num)
      · subst hv; exact Nat.mod_lt _ (by norm_num)
      · exact ih tail ht v hv
    · exact h1
    · exact h2
  | case7 a b c d rest h1 h2 hno ih =>
    exfalso
    rw [decodeQuanta] at h
    · cases hx : b64Value a with
      | none => simp [hx] at h
      | some x =>
        cases hy : b64Value b with
        | none => simp [hx, hy] at h
        | some y =>
          cases hz : b64Value c with
          | none => simp [hx, hy, hz] at h
          | some z =>
            cases hw : b64Value d with
            | none => simp [hx, hy, hz, hw] at h
            | some w =>
              cases ht : decodeQuanta rest with
              | none => simp [hx, hy, hz, hw, ht] at h
              | some tail => exact hno x y z w tail hx hy hz hw ht
    · exact h1
    · exact h2
  | case8 t h1 h2 h3 h4 =>
    exfalso
    rw [decodeQuanta] at h
    · cases h
    · exact h1
    · exact h2
    · exact h3
    · exact h4

theorem base64Decode_isBytes (s : String) (sig : List Nat) (h : base64Decode s = some sig) :
    IsBytes sig :=
  decodeQuanta_isBytes _ sig h

/-! ## The sample key admits one signature for a digest -/

theorem powMod_eq (b m : Nat) (steps e : Nat) (h : e < 2 ^ steps) :
    powMod b m steps e = b ^ e % m := by
  induction steps generalizing e with
  | zero =>
    have : e = 0 := by simpa using h
    subst this
    simp [powMod]
  | succ n ih =>
    unfold powMod
    by_cases he : e = 0
    · subst he; simp
    · have h2 : e / 2 < 2 ^ n := by
        rw [Nat.div_lt_iff_lt_mul (by norm_num)]
        rw [pow_succ] at h
        exact h
      rw [if_neg he, ih _ h2]
      have hsq : b ^ (e / 2) % m * (b ^ (e / 2) % m) % m = b ^ (2 * (e / 2)) % m := by
        rw [← Nat.mul_mod, ← pow_add, two_mul]
      by_cases hodd : e % 2 = 1
      · rw [if_pos hodd, hsq]
        have he2 : e = 2 * (e / 2) + 1 := by omega
        conv_rhs => rw [he2, pow_succ]
        rw [Nat.mul_mod (b ^ (2 * (e / 2)) % m) b m, Nat.mod_mod, ← Nat.mul_mod]
      · rw [if_neg hodd, hsq]
        have he2 : e = 2 * (e / 2) := by omega
        conv_rhs => rw [he2]

/-- A prime that divides a product of powers of 2, 3, 5 and 7 is one of them. -/
theorem prime_dvd_smooth (r a b c d : Nat) (hr : r.Prime)
    (h : r ∣ 2 ^ a * 3 ^ b * 5 ^ c * 7 ^ d) : r = 2 ∨ r = 3 ∨ r = 5 ∨ r = 7 := by
  rcases (Nat.Prime.dvd_mul hr).mp h with h | h
  · rcases (Nat.Prime.dvd_mul hr).mp h with h | h
    · rcases (Nat.Prime.dvd_mul hr).mp h with h | h
      · exact Or.inl ((Nat.prime_dvd_prime_iff_eq hr Nat.prime_two).mp (hr.dvd_of_dvd_pow h))
      · exact Or.inr (Or.inl ((Nat.prime_dvd_prime_iff_eq hr Nat.prime_three).mp
          (hr.dvd_of_dvd_pow h)))
    · exact Or.inr (Or.inr (Or.inl ((Nat.prime_dvd_prime_iff_eq hr Nat.prime_five).mp
        (hr.dvd_of_dvd_pow h))))
  · exact Or.inr (Or.inr (Or.inr ((Nat.prime_dvd_prime_iff_eq hr (by norm_num)).mp
      (hr.dvd_of_dvd_pow h))))

/-- The Lucas test for a number `p` with `p - 1` a product of powers of 2, 3,
5 and 7, the powers of the base `g` computed by `powMod`. -/
theorem prime_of_lucas (p g a b c d : Nat) (hp : p - 1 = 2 ^ a * 3 ^ b * 5 ^ c * 7 ^ d)
    (h1 : powMod g p 1024 (p - 1) = 1)
    (h2 : powMod g p 1024 ((p - 1) / 2) ≠ 1)
    (h3 : powMod g p 1024 ((p - 1) / 3) ≠ 1)
    (h5 : powMod g p 1024 ((p - 1) / 5) ≠ 1)
    (h7 : powMod g p 1024 ((p - 1) / 7) ≠ 1)
    (hlt : p < 2 ^ 1024) (hgt : 1 < p) : p.Prime := by
  have hlt' : ∀ e, e ≤ p - 1 → e < 2 ^ 1024 := fun e he => by omega
  have cast : ∀ e, e ≤ p - 1 → ((g : ZMod p) ^ e = 1 ↔ powMod g p 1024 e = 1) := by
    intro e he
    rw [powMod_eq g p 1024 e (hlt' e he), ← Nat.cast_pow]
    have h1' : ((1 : ℕ) : ZMod p) = 1 := Nat.cast_one
    rw [← h1', ZMod.natCast_eq_natCast_iff', Nat.mod_eq_of_lt hgt]
  apply lucas_primality p (g : ZMod p)
  · exact (cast _ le_rfl).mpr h1
  · intro r hr hdvd
    rw [hp] at hdvd
    have hle : (p - 1) / r ≤ p - 1 := Nat.div_le_self _ _
    rw [Ne, cast _ hle]
    rcases prime_dvd_smooth r a b c d hr hdvd with h | h | h | h <;> subst h
    · exact h2
    · exact h3
    · exact h5
    · exact h7

theorem sampleP_pred : sampleP - 1 = 2 ^ 194 * 3 ^ 181 * 5 ^ 148 * 7 ^ 71 := by
  norm_num [sampleP]

theorem sampleQ_pred : sampleQ - 1 = 2 ^ 196 * 3 ^ 93 * 5 ^ 137 * 7 ^ 129 := by
  norm_num [sampleQ]

/-- The first factor of the sample modulus is prime (Lucas test, base 31). -/
theorem sampleP_prime : sampleP.Prime :=
  prime_of_lucas sampleP 31 194 181 148 71 sampleP_pred (by decide!) (by decide!) (by decide!)
    (by decide!) (by decide!) (by decide!) (by decide!)

/-- The second factor of the sample modulus is prime (Lucas test, base 57). -/
theorem sampleQ_prime : sampleQ.Prime :=
  prime_of_lucas sampleQ 57 196 93 137 129 sampleQ_pred (by decide!) (by decide!) (by decide!)
    (by decide!) (by decide!) (by decide!) (by decide!)

/-- Raising to a power that is 1 modulo `p - 1` is the identity modulo a prime `p`. -/
theorem pow_one_add_mul_pred (p : Nat) (hp : p.Prime) (x m : Nat) :
    x ^ (1 + m * (p - 1)) ≡ x [MOD p] := by
  haveI : Fact p.Prime := ⟨hp⟩
  rw [← ZMod.natCast_eq_natCast_iff, Nat.cast_pow]
  by_cases hx : (x : ZMod p) = 0
  · rw [hx, pow_add, pow_one, zero_mul]
  · rw [pow_add, pow_one, mul_comm m, pow_mul, ZMod.pow_card_sub_one_eq_one hx, one_pow, mul_one]

/-- The RSA map `x ↦ x ^ e` is injective below the modulus `p * q`. -/
theorem rsa_injective (p q e d t : Nat) (hp : p.Prime) (hq : q.Prime) (hne : p ≠ q)
    (hed : e * d = 1 + t * ((p - 1) * (q - 1))) (x y : Nat)
    (hx : x < p * q) (hy : y < p * q) (h : x ^ e % (p * q) = y ^ e % (p * q)) : x = y := by
  have key : ∀ z : Nat, (z ^ e) ^ d ≡ z [MOD p * q] := by
    intro z
    rw [← pow_mul, hed]
    apply (Nat.modEq_and_modEq_iff_modEq_mul ((Nat.coprime_primes hp hq).mpr hne)).mp
    constructor
    · have : t * ((p - 1) * (q - 1)) = (t * (q - 1)) * (p - 1) := by ring
      rw [this]
      exact pow_one_add_mul_pred p hp z _
    · have : t * ((p - 1) * (q - 1)) = (t * (p - 1)) * (q - 1) := by ring
      rw [this]
      exact pow_one_add_mul_pred q hq z _
  have h' : x ^ e ≡ y ^ e [MOD p * q] := h
  have h2 : x ≡ y [MOD p * q] := ((key x).symm.trans (h'.pow d)).trans (key y)
  have h3 : x % (p * q) = y % (p * q) := h2
  rwa [Nat.mod_eq_of_lt hx, Nat.mod_eq_of_lt hy] at h3

theorem sample_ed : 65537 * sampleD = 1 + sampleT * ((sampleP - 1) * (sampleQ - 1)) := by
  decide!

theorem sampleP_ne_sampleQ : sampleP ≠ sampleQ := by decide!

theorem sampleN_eq : sampleN = sampleP * sampleQ := by decide!

theorem sampleN_size : byteLen sampleN sampleN = 256 := by decide!

theorem sampleN_lt : sampleN < 256 ^ 256 := by decide!

/-- The RSA map of the sample key is injective below the modulus. -/
theorem sample_rsa_injective (x y : Nat) (hx : x < sampleN) (hy : y < sampleN)
    (h : x ^ 65537 % sampleN = y ^ 65537 % sampleN) : x = y := by
  rw [sampleN_eq] at hx hy h
  exact rsa_injective sampleP sampleQ 65537 sampleD sampleT sampleP_prime sampleQ_prime
    sampleP_ne_sampleQ sample_ed x y hx hy h

theorem beValue_foldl (bs : List Nat) (a : Nat) :
    bs.foldl (fun acc b => acc * 256 + b) a = a * 256 ^ bs.length + beValue bs := by
  unfold beValue
  induction bs generalizing a with
  | nil => simp
  | cons b rest ih =>
    rw [List.foldl_cons, List.foldl_cons, ih, ih (0 * 256 + b), List.length_cons, pow_succ]
    ring

theorem beValue_cons (b : Nat) (bs : List Nat) :
    beValue (b :: bs) = b * 256 ^ bs.length + beValue bs := by
  have := beValue_foldl bs (0 * 256 + b)
  unfold beValue at this ⊢
  rw [List.foldl_cons, this]
  ring

theorem beValue_lt (bs : List Nat) (h : IsBytes bs) : beValue bs < 256 ^ bs.length := by
  induction bs with
  | nil => simp [beValue]
  | cons b rest ih =>
    have hb : b < 256 := h b (List.mem_cons_self _ _)
    have hr := ih (fun x hx => h x (List.mem_cons_of_mem _ hx))
    rw [beValue_cons, List.length_cons, pow_succ]
    nlinarith

/-- Two byte strings of one length that spell the same number are equal. -/
theorem beValue_injective (s t : List Nat) (hs : IsBytes s) (ht : IsBytes t)
    (hlen : s.length = t.length) (h : beValue s = beValue t) : s = t := by
  induction s generalizing t with
  | nil =>
    cases t with
    | nil => rfl
    | cons _ _ => simp at hlen
  | cons a s ih =>
    cases t with
    | nil => simp at hlen
    | cons b t =>
      have hlen' : s.length = t.length := by simpa using hlen
      have hs' : IsBytes s := fun x hx => hs x (List.mem_cons_of_mem _ hx)
      have ht' : IsBytes t := fun x hx => ht x (List.mem_cons_of_mem _ hx)
      rw [beValue_cons, beValue_cons, hlen'] at h
      have h1 := beValue_lt s hs'
      have h2 := beValue_lt t ht'
      rw [hlen'] at h1
      have hpos : 0 < 256 ^ t.length := by positivity
      have hab : a = b := by
        have e1 : (a * 256 ^ t.length + beValue s) / 256 ^ t.length = a := by
          rw [Nat.add_comm, Nat.add_mul_div_right _ _ hpos, Nat.div_eq_of_lt h1, Nat.zero_add]
        have e2 : (b * 256 ^ t.length + beValue t) / 256 ^ t.length = b := by
          rw [Nat.add_comm, Nat.add_mul_div_right _ _ hpos, Nat.div_eq_of_lt h2, Nat.zero_add]
        rw [← e1, ← e2, h]
      subst hab
      have hst : beValue s = beValue t := by omega
      rw [ih t hs' ht' hlen' hst]

theorem beBytes_length (k n : Nat) : (beBytes k n).length = k := by
  induction k with
  | zero => rfl
  | succ k ih => simp [beBytes, ih]

theorem beValue_beBytes (k n : Nat) : beValue (beBytes k n) = n % 256 ^ k := by
  induction k with
  | zero => simp [beBytes, beValue, Nat.mod_one]
  | succ k ih =>
    rw [beBytes, beValue_cons, ih, beBytes_length, Nat.mod_pow_succ]
    ring

/-- What an accepted signature satisfies. -/
theorem rsaVerify_ok (pub : RSAPublicKey) (n : Nat) (hashed sig : List Nat)
    (hN : pub.N = some n) (h : rsaVerifyPKCS1v15 pub hashed sig = .ok ()) :
    sig.length = byteLen n n ∧ beValue sig < n ∧
    beBytes (byteLen n n) (powMod (beValue sig) n 32 pub.E.toNat) =
      [0, 1] ++ List.replicate (byteLen n n - (sha256DigestInfo.length + 32) - 3) 255 ++ [0]
        ++ sha256DigestInfo ++ hashed := by
  unfold rsaVerifyPKCS1v15 at h
  rw [hN] at h
  simp only at h
  split_ifs at h with h1 h2 h3 h4 h5 h6 h7
  exact ⟨not_not.mp h5, Nat.lt_of_not_le h6, h7⟩

/-- Under the sample key at most one byte string is accepted as the signature
of a digest. -/
theorem sampleKey_unique (hashed s t : List Nat) (hs : IsBytes s) (ht : IsBytes t)
    (h1 : rsaVerifyPKCS1v15 sampleKey hashed s = .ok ())
    (h2 : rsaVerifyPKCS1v15 sampleKey hashed t = .ok ()) : s = t := by
  obtain ⟨ls, vs, es⟩ := rsaVerify_ok sampleKey sampleN hashed s rfl h1
  obtain ⟨lt, vt, et⟩ := rsaVerify_ok sampleKey sampleN hashed t rfl h2
  have hE : sampleKey.E.toNat = 65537 := rfl
  rw [hE, powMod_eq _ _ _ _ (by norm_num)] at es et
  have hpow : beValue s ^ 65537 % sampleN = beValue t ^ 65537 % sampleN := by
    have e := congrArg beValue (es.trans et.symm)
    rw [beValue_beBytes, beValue_beBytes, sampleN_size] at e
    have b1 : beValue s ^ 65537 % sampleN < 256 ^ 256 :=
      lt_trans (Nat.mod_lt _ (by decide!)) sampleN_lt
    have b2 : beValue t ^ 65537 % sampleN < 256 ^ 256 :=
      lt_trans (Nat.mod_lt _ (by decide!)) sampleN_lt
    rwa [Nat.mod_eq_of_lt b1, Nat.mod_eq_of_lt b2] at e
  exact beValue_injective s t hs ht (ls.trans lt.symm)
    (sample_rsa_injective _ _ vs vt hpow)

/-! ## The sample environment -/

theorem verifySignature_sampleEnv (kf : Except String String) (d : List (String × Json))
    (u : Except String UpstreamResponse) (data sig : String) :
    verifySignature (sampleEnv kf d u) sampleKey data sig =
      verifySignature (payEnv 200) sampleKey data sig := rfl

theorem isOk_eq_true (x : Except String Unit) (h : x.isOk = true) : x = .ok () := by
  cases x with
  | error e => simp [Except.isOk, Except.toBool] at h
  | ok u => rfl

theorem isOk_eq_false (x : Except String Unit) (h : x.isOk = false) : ∃ err, x = .error err := by
  cases x with
  | error e => exact ⟨e, rfl⟩
  | ok u => simp [Except.isOk, Except.toBool] at h

set_option maxRecDepth 100000 in
/-- The sample signature verifies under the sample key. -/
theorem sample_accepts (status : Nat) :
    verifySignature (payEnv status) sampleKey sampleSecval sampleSec = .ok () := by
  rw [payEnv, verifySignature_sampleEnv]
  exact isOk_eq_true _ (by decide!)

set_option maxRecDepth 100000 in
/-- The signature text with its last symbol before the padding changed decodes
to the same bytes, and verifies. -/
theorem tampered_accepts (status : Nat) :
    verifySignature (payEnv status) sampleKey sampleSecval tamperedSec = .ok () := by
  rw [payEnv, verifySignature_sampleEnv]
  exact isOk_eq_true _ (by decide!)

set_option maxRecDepth 100000 in
/-- The signature text with its first symbol changed is still base64, and the
RSA check rejects its bytes. -/
theorem broken_rejected (status : Nat) :
    base64Decode brokenSec ≠ none ∧
    ∃ err, verifySignature (payEnv status) sampleKey sampleSecval brokenSec = .error err := by
  rw [payEnv, verifySignature_sampleEnv]
  exact ⟨by decide, isOk_eq_false _ (by decide!)⟩

set_option maxRecDepth 100000 in
theorem sample_loads (d : List (String × Json)) (u : Except String UpstreamResponse) :
    loadPublicKey (sampleEnv (.ok samplePEM) d u) publicKeyPath = .ok sampleKey := by
  simp [loadPublicKey, sampleEnv, publicKeyPath]
  decide

theorem payEnv_loads (status : Nat) :
    loadPublicKey (payEnv status) publicKeyPath = .ok sampleKey := sample_loads _ _

set_option maxRecDepth 100000 in
theorem payEnv_decode_sample (status : Nat) :
    (payEnv status).jsonDecode (payBody sampleSec) = .ok (.object (payMembers sampleSec)) := rfl

set_option maxRecDepth 100000 in
theorem payEnv_decode_tampered (status : Nat) :
    (payEnv status).jsonDecode (payBody tamperedSec) = .ok (.object (payMembers tamperedSec)) :=
  rfl

set_option maxRecDepth 100000 in
theorem payEnv_decode_broken (status : Nat) :
    (payEnv status).jsonDecode (payBody brokenSec) = .ok (.object (payMembers brokenSec)) := rfl

set_option maxRecDepth 100000 in
theorem sampleSec_ne_empty : sampleSec ≠ "" := by decide

theorem sampleSecval_ne_empty : sampleSecval ≠ "" := by decide

/-- The sample request passes every check before verification. -/
theorem pay_checked (status : Nat) :
    Checked (payEnv status) (payRequest (payBody sampleSec)) sampleKey
      (fromMembers (payMembers sampleSec)) sampleSec sampleSecval :=
  checked_of_object _ _ _ _ _ _ _ (payEnv_loads status) rfl (payEnv_decode_sample status)
    rfl rfl sampleSec_ne_empty sampleSecval_ne_empty

/-- The sample request is forwarded and the upstream's answer relayed. -/
theorem pay_run (status : Nat) :
    proxyHandler (payEnv status) (payRequest (payBody sampleSec)) =
      ⟨[.verify sampleKey sampleSecval sampleSec, .send payOutbound],
        relay (payEnv status) (upstreamAnswer status)⟩ :=
  proxyHandler_relayed _ _ _ _ _ _ _ _ _ (pay_checked status) (sample_accepts status) rfl rfl rfl

/-- The sample request with a query passes every check before verification. -/
theorem query_checked :
    Checked (payEnv 200) queryRequest sampleKey
      (fromMembers (payMembers sampleSec)) sampleSec sampleSecval :=
  checked_of_object _ _ _ _ _ _ _ (payEnv_loads 200) rfl (payEnv_decode_sample 200)
    rfl rfl sampleSec_ne_empty sampleSecval_ne_empty

theorem query_run :
    proxyHandler (payEnv 200) queryRequest =
      ⟨[.verify sampleKey sampleSecval sampleSec, .send queryOutbound],
        relay (payEnv 200) (upstreamAnswer 200)⟩ :=
  proxyHandler_relayed _ _ _ _ _ _ _ _ _ query_checked (sample_accepts 200) rfl rfl rfl

set_option maxRecDepth 100000 in
theorem one_char_tampered : OneCharChanged sampleSec tamperedSec := by
  unfold OneCharChanged; decide

set_option maxRecDepth 100000 in
theorem one_char_broken : OneCharChanged sampleSec brokenSec := by
  unfold OneCharChanged; decide

set_option maxRecDepth 100000 in
theorem tamperedSec_ne_empty : tamperedSec ≠ "" := by decide

set_option maxRecDepth 100000 in
theorem brokenSec_ne_empty : brokenSec ≠ "" := by decide

/-- The request with the tampered signature text passes every check before
verification. -/
theorem tampered_checked (status : Nat) :
    Checked (payEnv status) (payRequest (payBody tamperedSec)) sampleKey
      (fromMembers (payMembers tamperedSec)) tamperedSec sampleSecval :=
  checked_of_object _ _ _ _ _ _ _ (payEnv_loads status) rfl (payEnv_decode_tampered status)
    rfl rfl tamperedSec_ne_empty sampleSecval_ne_empty

/-- The request with the tampered signature text is forwarded like the sample
request. -/
theorem tampered_run (status : Nat) :
    proxyHandler (payEnv status) (payRequest (payBody tamperedSec)) =
      ⟨[.verify sampleKey sampleSecval tamperedSec, .send payOutbound],
        relay (payEnv status) (upstreamAnswer status)⟩ :=
  proxyHandler_relayed _ _ _ _ _ _ _ _ _ (tampered_checked status) (tampered_accepts status)
    rfl rfl rfl

/-- The request with the broken signature text passes every check before
verification. -/
theorem broken_checked (status : Nat) :
    Checked (payEnv status) (payRequest (payBody brokenSec)) sampleKey
      (fromMembers (payMembers brokenSec)) brokenSec sampleSecval :=
  checked_of_object _ _ _ _ _ _ _ (payEnv_loads status) rfl (payEnv_decode_broken status)
    rfl rfl brokenSec_ne_empty sampleSecval_ne_empty

set_option maxRecDepth 100000 in
/-- The request whose `sec` is `!!!!` passes every check before verification. -/
theorem malformed_checked (status : Nat) :
    Checked (payEnv status) (payRequest (payBody "!!!!")) sampleKey
      (fromMembers (payMembers "!!!!")) "!!!!" sampleSecval :=
  checked_of_object _ _ _ _ _ _ _ (payEnv_loads status) rfl rfl
    rfl rfl (by decide!) sampleSecval_ne_empty

/-- The bytes of the broken signature text, and the refusal of the RSA check. -/
theorem broken_rsa_rejects (status : Nat) :
    ∃ sig err, base64Decode brokenSec = some sig ∧
      (payEnv status).verifyPKCS1v15 sampleKey ((payEnv status).sha256 sampleSecval) sig =
        .error err := by
  obtain ⟨hne, err, hv⟩ := broken_rejected status
  cases hdec : base64Decode brokenSec with
  | none => exact absurd hdec hne
  | some sig =>
    refine ⟨sig, ?_⟩
    cases hr : (payEnv status).verifyPKCS1v15 sampleKey ((payEnv status).sha256 sampleSecval) sig
      with
    | error e => exact ⟨e, rfl, rfl⟩
    | ok u =>
      rw [verifySignature_passed _ _ _ _ sig u hdec hr] at hv
      cases hv

set_option maxRecDepth 100000 in
/-- The tampered signature text decodes to the bytes of the sample. -/
theorem tampered_same_bytes : base64Decode tamperedSec = base64Decode sampleSec := by decide!

set_option maxRecDepth 100000 in
/-- The broken signature text decodes to other bytes than the sample. -/
theorem broken_other_bytes : base64Decode brokenSec ≠ base64Decode sampleSec := by decide!

set_option maxRecDepth 100000 in
/-- The request with the amount `2 ^ 53 + 1` passes every check before
verification; its amount is decoded to the `float64` `2 ^ 53`. -/
theorem big_checked (status : Nat) :
    Checked (payEnv status) (payRequest bigBody) sampleKey
      (fromMembers [("sec", .string sampleSec), ("secval", .string sampleSecval),
        ("amount", .float64 0x4340000000000000)]) sampleSec sampleSecval :=
  checked_of_object _ _ _ _ _ _ _ (payEnv_loads status) rfl rfl
    rfl rfl sampleSec_ne_empty sampleSecval_ne_empty

set_option maxRecDepth 100000 in
/-- The request with the amount `2 ^ 53 + 1` is forwarded with the amount
`2 ^ 53`. -/
theorem big_run (status : Nat) :
    proxyHandler (payEnv status) (payRequest bigBody) =
      ⟨[.verify sampleKey sampleSecval sampleSec,
          .send { method := "POST"
                  url := "https://sep.shaparak.ir/pay/request"
                  header := [("X-Trace-Id", ["a1", "b2"])]
                  body := "\x7b\"amount\":9007199254740992\x7d" }],
        relay (payEnv status) (upstreamAnswer status)⟩ :=
  proxyHandler_relayed _ _ _ _ _ _ _ _ _ (big_checked status) (sample_accepts status) rfl rfl rfl

/-! ## The claims -/

/-! ### Claim C1 -/

set_option maxRecDepth 100000 in
/-- C1, the claim fails: the request with the body
`{"sec":"<sig>","secval":"1000|order123","amount":9007199254740993}`, a
well-formed JSON object whose `sec` is the valid signature of its `secval`, is
forwarded with the body `{"amount":9007199254740992}`.  The decoder stores a
number as a `float64`, 9007199254740993 is `2 ^ 53 + 1` and is rounded to
`2 ^ 53`, and the serialiser prints that: the value of the key `amount` that
reaches the upstream is not the value of the body, and the forwarded body is
not `{"amount":9007199254740993}`, the body without its `sec` and `secval`. -/
theorem C1_counterexample :
    loadPublicKey (payEnv 200) publicKeyPath = .ok sampleKey ∧
    bigBody = "\x7b\"sec\":\"" ++ sampleSec ++
      "\",\"secval\":\"1000|order123\",\"amount\":9007199254740993\x7d" ∧
    (payEnv 200).jsonScan bigBody = .ok (jsonWith sampleSec "9007199254740993") ∧
    verifySignature (payEnv 200) sampleKey sampleSecval sampleSec = .ok () ∧
    (proxyHandler (payEnv 200) (payRequest bigBody)).trace =
      [.verify sampleKey sampleSecval sampleSec,
        .send { method := "POST"
                url := "https://sep.shaparak.ir/pay/request"
                header := [("X-Trace-Id", ["a1", "b2"])]
                body := "\x7b\"amount\":9007199254740992\x7d" }] ∧
    (∀ req, Event.send req ∈ (proxyHandler (payEnv 200) (payRequest bigBody)).trace →
      req.body = "\x7b\"amount\":9007199254740992\x7d" ∧
      req.body ≠ "\x7b\"amount\":9007199254740993\x7d") := by
  refine ⟨payEnv_loads 200, rfl, rfl, sample_accepts 200, ?_, ?_⟩
  · rw [big_run]
  · intro req hsend
    rw [big_run] at hsend
    simp only [List.mem_cons, List.mem_singleton, List.not_mem_nil, or_false,
      false_or, Event.send.injEq] at hsend
    rcases hsend with hsend | hsend
    · cases hsend
    · subst hsend
      exact ⟨rfl, by decide⟩

/-- C1 as amended: take a body that is a JSON object whose `sec` and `secval`
are non-empty strings and whose signature verifies under the loaded key.  If
the object holds a number outside the range of `float64`, the decoder fails and
the answer is 400 with nothing verified or forwarded.  Otherwise what the
handler serialises and forwards is the map the decoder built with the keys
`sec` and `secval` deleted: `sec` and `secval` are absent; every other key of
the body is present and holds the decoded form of the value the body gives it
(the last one, should the key be repeated), which for a number is the `float64`
that `strconv.ParseFloat` gives for its literal and not the literal itself; no
key is added; every request handed to the upstream carries `json.Marshal` of
that map as its body, and whenever `json.Marshal` and
`http.NewRequestWithContext` succeed the request is handed to the upstream with
that body, after one call of `verifySignature`.  With the printer of
`encoding/json` that body is an object text with one member for every key of
that map, sorted by key: the quoted key, a colon and the serialisation of the
decoded value. -/
theorem C1_forwarded_body_is_the_decoded_body_without_sec_and_secval
    (E : Env) (r : Request) (key : RSAPublicKey) (body : String)
    (members : List (String × Json)) (sec secval : String)
    (hkey : loadPublicKey E publicKeyPath = .ok key)
    (hbody : r.body = .ok body)
    (hscan : E.jsonScan body = .ok (.object members))
    (hsec : memberValue members "sec" = some (.string sec))
    (hsecval : memberValue members "secval" = some (.string secval))
    (hsecNe : sec ≠ "") (hsecvalNe : secval ≠ "")
    (hv : verifySignature E key secval sec = .ok ()) :
    (∀ err, toInterfaceMembers E members = .error err →
      (proxyHandler E r).response.status = 400 ∧ (proxyHandler E r).trace = []) ∧
    (∀ decoded, toInterfaceMembers E members = .ok decoded →
      (∀ k, (GoMap.get (sanitized (fromMembers decoded)) k).map Except.ok =
          if k = "sec" ∨ k = "secval" then none
          else (memberValue members k).map (toInterface E)) ∧
      (∀ req, Event.send req ∈ (proxyHandler E r).trace →
          E.jsonMarshal (sanitized (fromMembers decoded)) = .ok req.body) ∧
      (∀ modifiedBody req, E.jsonMarshal (sanitized (fromMembers decoded)) = .ok modifiedBody →
          outbound E r modifiedBody = .ok req →
          (proxyHandler E r).trace = [.verify key secval sec, .send req] ∧
            req.body = modifiedBody) ∧
      (E.jsonMarshal = jsonMarshalMap →
        ∀ req, Event.send req ∈ (proxyHandler E r).trace →
          ∃ parts : List (String × String),
            List.Forall₂ (fun (kv : String × GoValue) (p : String × String) =>
              p.1 = kv.1 ∧ marshalValue kv.2 = .ok p.2) (sanitized (fromMembers decoded)) parts ∧
            req.body = "\x7b" ++ commaJoin ((sortMembers parts).map
              (fun kv => quote kv.1 ++ ":" ++ kv.2)) ++ "\x7d")) := by
  constructor
  · intro err herr
    rw [proxyHandler_jsonError E r key body err hkey hbody
      (by simp [jsonUnmarshal, jsonDecode_object_error E body members err hscan herr])]
    exact ⟨rfl, rfl⟩
  · intro decoded hdec
    have hdoc := jsonDecode_object E body members decoded hscan hdec
    have hc := checked_of_object E r key body decoded sec secval hkey hbody hdoc
      (toInterfaceMembers_string E members decoded hdec "sec" sec hsec)
      (toInterfaceMembers_string E members decoded hdec "secval" secval hsecval)
      hsecNe hsecvalNe
    have hsent : ∀ req, Event.send req ∈ (proxyHandler E r).trace →
        E.jsonMarshal (sanitized (fromMembers decoded)) = .ok req.body := by
      intro req hsend
      obtain ⟨key', data', sec', secval', modifiedBody, hc', _, hm, hn⟩ :=
        sent_inv E r req hsend
      obtain ⟨_, hd, _, _⟩ := checked_determines E r _ _ _ _ _ _ _ _ hc hc'
      subst hd
      rw [hm, outbound_ok E r modifiedBody req hn]
    refine ⟨?_, hsent, ?_, ?_⟩
    · intro k
      rw [get_sanitized, GoMap.get_fromMembers]
      by_cases hk : k = "sec" ∨ k = "secval"
      · rw [if_pos hk, if_pos hk]
        rfl
      · rw [if_neg hk, if_neg hk]
        exact toInterfaceMembers_memberValue E members decoded hdec k
    · intro modifiedBody req hm hn
      have hbodyEq : req.body = modifiedBody := by
        rw [outbound_ok E r modifiedBody req hn]
      refine ⟨?_, hbodyEq⟩
      cases hd : E.clientDo req with
      | error err =>
        rw [proxyHandler_unreachable E r key _ sec secval modifiedBody err req hc hv hm hn hd]
      | ok resp =>
        rw [proxyHandler_relayed E r key _ sec secval modifiedBody req resp hc hv hm hn hd]
    · intro hmarshal req hsend
      have hm := hsent req hsend
      rw [hmarshal] at hm
      exact jsonMarshalMap_ok _ _ hm

set_option maxRecDepth 100000 in
/-- The sample request `{"sec":"<sig>","secval":"1000|order123","amount":1000}`
with a valid signature: the map that is serialised holds `amount` only, and
the upstream receives `payOutbound`, whose body is `{"amount":1000}`.  The
same request with the amount `1e400`, which is no `float64`, is answered 400
and nothing is handed to the upstream. -/
theorem C1_witness :
    sanitized (fromMembers (payMembers sampleSec)) = [("amount", .float64 0x408F400000000000)] ∧
    ((proxyHandler (payEnv 200) (payRequest (payBody sampleSec))).trace =
        [.verify sampleKey sampleSecval sampleSec, .send payOutbound] ∧
      payOutbound.body = "\x7b\"amount\":1000\x7d") ∧
    ((proxyHandler (payEnv 200) (payRequest (bodyWith sampleSec "1e400"))).response.status = 400 ∧
      (proxyHandler (payEnv 200) (payRequest (bodyWith sampleSec "1e400"))).trace = []) :=
  ⟨rfl,
    ((C1_forwarded_body_is_the_decoded_body_without_sec_and_secval (payEnv 200)
      (payRequest (payBody sampleSec)) sampleKey (payBody sampleSec)
      [("sec", .string sampleSec), ("secval", .string sampleSecval), ("amount", .number "1000")]
      sampleSec sampleSecval
      (payEnv_loads 200) rfl rfl rfl rfl sampleSec_ne_empty
      sampleSecval_ne_empty (sample_accepts 200)).2 (payMembers sampleSec) rfl).2.2.1
        "\x7b\"amount\":1000\x7d" payOutbound rfl rfl,
    (C1_forwarded_body_is_the_decoded_body_without_sec_and_secval (payEnv 200)
      (payRequest (bodyWith sampleSec "1e400")) sampleKey (bodyWith sampleSec "1e400")
      [("sec", .string sampleSec), ("secval", .string sampleSecval), ("amount", .number "1e400")]
      sampleSec sampleSecval
      (payEnv_loads 200) rfl rfl rfl rfl sampleSec_ne_empty
      sampleSecval_ne_empty (sample_accepts 200)).1 _ rfl⟩

/-! ### Claim C2 -/

/-- C2: if a step before forwarding fails (key loading, body read, JSON
parsing, the type check of `sec` and `secval`, the emptiness check, signature
verification), the handler answers with an error status (4xx or 5xx) and hands
no request to the upstream; a request is handed to the upstream only when all
these steps succeeded; and every run either fails at one of these steps or
passes them all. -/
theorem C2_failure_is_an_error_and_never_forwards (E : Env) (r : Request) :
    (StepFails E r →
      (400 ≤ (proxyHandler E r).response.status ∧ (proxyHandler E r).response.status < 600) ∧
      ∀ req, Event.send req ∉ (proxyHandler E r).trace) ∧
    ((∃ req, Event.send req ∈ (proxyHandler E r).trace) → StepsSucceed E r) ∧
    (StepFails E r ∨ StepsSucceed E r) := by
  refine ⟨?_, ?_, ?_⟩
  · intro hf
    cases hf with
    | keyLoading err hkey =>
      rw [proxyHandler_keyError E r err hkey]
      simp [httpError, StatusInternalServerError]
    | bodyRead key err hkey hbody =>
      rw [proxyHandler_readError E r key err hkey hbody]
      simp [httpError, StatusInternalServerError]
    | jsonParsing key body err hkey hbody hjson =>
      rw [proxyHandler_jsonError E r key body err hkey hbody hjson]
      simp [httpError, StatusBadRequest]
    | typeCheck key body data hkey hbody hjson hty =>
      rw [proxyHandler_notStrings E r key body data hkey hbody hjson
        (by rw [assertString_false, assertString_false]; exact hty)]
      simp [httpError, StatusBadRequest]
    | emptiness key body data sec secval hkey hbody hjson hsec hsecval hempty =>
      rw [proxyHandler_empty E r key body data hkey hbody hjson (by rw [hsec]; rfl)
        (by rw [hsecval]; rfl) (by rw [hsec, hsecval]; exact hempty)]
      simp [httpError, StatusNotFound]
    | signature key data sec secval err h hv =>
      rw [proxyHandler_badSignature E r key data sec secval err h hv]
      simp [httpError, StatusUnauthorized]
  · rintro ⟨req, hsend⟩
    obtain ⟨key, data, sec, secval, _, hc, hv, _, _⟩ := sent_inv E r req hsend
    exact ⟨key, data, sec, secval, hc, hv⟩
  · have hs := proxyHandler_stage E r
    generalize proxyHandler E r = o at hs
    cases hs with
    | keyError err hkey => exact .inl (.keyLoading err hkey)
    | readError key err hkey hbody => exact .inl (.bodyRead key err hkey hbody)
    | jsonError key body err hkey hbody hjson =>
      exact .inl (.jsonParsing key body err hkey hbody hjson)
    | notStrings key body data hkey hbody hjson hty =>
      rw [assertString_false, assertString_false] at hty
      exact .inl (.typeCheck key body data hkey hbody hjson hty)
    | empty key body data sec secval hkey hbody hjson hsec hsecval hempty =>
      exact .inl (.emptiness key body data sec secval hkey hbody hjson hsec hsecval hempty)
    | badSignature key data sec secval err h hv =>
      exact .inl (.signature key data sec secval err h hv)
    | marshalError key data sec secval err h hv hm => exact .inr ⟨key, data, sec, secval, h, hv⟩
    | newRequestError key data sec secval modifiedBody err h hv hm hn =>
      exact .inr ⟨key, data, sec, secval, h, hv⟩
    | unreachable key data sec secval modifiedBody err req h hv hm hn hd =>
      exact .inr ⟨key, data, sec, secval, h, hv⟩
    | relayed key data sec secval modifiedBody req resp h hv hm hn hd =>
      exact .inr ⟨key, data, sec, secval, h, hv⟩

/-! ### Claim C3 -/

/-- C3: with the key loaded and the body read, for a JSON object body in which
`sec` or `secval` is missing or is not a string the handler answers 400, and
for one in which both are strings and at least one is empty it answers 404
(this covers one empty beside a non-empty one, and both empty); in both cases
the trace is empty: `verifySignature` is not called and nothing is handed to
the upstream. -/
theorem C3_credentials_rejected_before_verification
    (E : Env) (r : Request) (key : RSAPublicKey) (body : String)
    (members : List (String × GoValue))
    (hkey : loadPublicKey E publicKeyPath = .ok key)
    (hbody : r.body = .ok body)
    (hdoc : E.jsonDecode body = .ok (.object members)) :
    (((¬ ∃ s, memberValue members "sec" = some (.string s)) ∨
        (¬ ∃ s, memberValue members "secval" = some (.string s))) →
      (proxyHandler E r).response.status = 400 ∧ (proxyHandler E r).trace = []) ∧
    (∀ sec secval, memberValue members "sec" = some (.string sec) →
      memberValue members "secval" = some (.string secval) →
      (sec = "" ∨ secval = "") →
      (proxyHandler E r).response.status = 404 ∧ (proxyHandler E r).trace = []) := by
  constructor
  · intro hty
    rw [proxyHandler_object_notStrings E r key body members hkey hbody hdoc hty]
    exact ⟨rfl, rfl⟩
  · intro sec secval hsec hsecval hempty
    rw [proxyHandler_object_empty E r key body members sec secval hkey hbody hdoc hsec hsecval
      hempty]
    exact ⟨rfl, rfl⟩

set_option maxRecDepth 100000 in
/-- The body `{"sec":"","secval":""}` is answered 404 with an empty trace. -/
theorem C3_witness :
    (proxyHandler (payEnv 200) (payRequest "\x7b\"sec\":\"\",\"secval\":\"\"\x7d")).response.status
        = 404 ∧
    (proxyHandler (payEnv 200) (payRequest "\x7b\"sec\":\"\",\"secval\":\"\"\x7d")).trace = [] :=
  (C3_credentials_rejected_before_verification (payEnv 200)
    (payRequest "\x7b\"sec\":\"\",\"secval\":\"\"\x7d") sampleKey
    "\x7b\"sec\":\"\",\"secval\":\"\"\x7d" [("sec", .string ""), ("secval", .string "")]
    (payEnv_loads 200) rfl rfl).2 "" "" rfl rfl (Or.inl rfl)

/-! ### Claim C4 -/

set_option maxRecDepth 100000 in
/-- C4, the claim fails: the sample request is accepted and forwarded; the same
request with one character of `sec` changed (index 341, `A` to `B`, the last
symbol before the padding `==`) is not answered 401: `tamperedSec` decodes to
the same signature bytes, the request is forwarded to the upstream and the
upstream's 200 is relayed. -/
theorem C4_counterexample :
    OneCharChanged sampleSec tamperedSec ∧
    base64Decode tamperedSec = base64Decode sampleSec ∧
    (proxyHandler (payEnv 200) (payRequest (payBody sampleSec))).trace =
      [.verify sampleKey sampleSecval sampleSec, .send payOutbound] ∧
    (proxyHandler (payEnv 200) (payRequest (payBody tamperedSec))).response.status = 200 ∧
    (proxyHandler (payEnv 200) (payRequest (payBody tamperedSec))).trace =
      [.verify sampleKey sampleSecval tamperedSec, .send payOutbound] := by
  refine ⟨one_char_tampered, tampered_same_bytes, ?_, ?_, ?_⟩
  · rw [pay_run]
  · rw [tampered_run]; rfl
  · rw [tampered_run]

/-- C4 as amended: take a request that would be accepted (the key loads, the
body is an object with non-empty strings `sec` and `secval`, and the signature
verifies) and the same request with one character of `sec` changed, giving
`sec'`.  Let the key be one under which at most one byte string verifies as
the signature of `secval` (so it is with RSA and a proper key: the check
refuses a signature that is not smaller than the modulus, and raising to the
public exponent is one-to-one below it).  Then the changed request is answered
401 `Signature verification failed`, with nothing handed to the upstream,
exactly when `sec'` does not decode to the signature bytes of `sec`: when it
is no longer base64, or decodes to other bytes.  When `sec'` decodes to the
same bytes as `sec` (the decoder skips CR and LF and drops the unused low bits
of the last symbol before the padding) the changed request is accepted too: it
gets the response of the original and leads to the same outbound request. -/
theorem C4_tampered_sec_is_401_exactly_when_signature_bytes_differ
    (E : Env) (r : Request) (key : RSAPublicKey) (body body' : String)
    (members : List (String × GoValue)) (sec sec' secval : String)
    (hkey : loadPublicKey E publicKeyPath = .ok key)
    (hbody : r.body = .ok body)
    (hdoc : E.jsonDecode body = .ok (.object members))
    (hsec : memberValue members "sec" = some (.string sec))
    (hsecval : memberValue members "secval" = some (.string secval))
    (hsecNe : sec ≠ "") (hsecvalNe : secval ≠ "")
    (hv : verifySignature E key secval sec = .ok ())
    (hdoc' : E.jsonDecode body' = .ok (.object (withSec members sec')))
    (htamper : OneCharChanged sec sec')
    (hunique : ∀ s t, IsBytes s → IsBytes t →
      E.verifyPKCS1v15 key (E.sha256 secval) s = .ok () →
      E.verifyPKCS1v15 key (E.sha256 secval) t = .ok () → s = t) :
    (base64Decode sec' ≠ base64Decode sec →
      (proxyHandler E { r with body := .ok body' }).response =
        httpError "Signature verification failed" 401 ∧
      (proxyHandler E { r with body := .ok body' }).response.status = 401 ∧
      ∀ req, Event.send req ∉ (proxyHandler E { r with body := .ok body' }).trace) ∧
    (base64Decode sec' = base64Decode sec →
      (proxyHandler E { r with body := .ok body' }).response = (proxyHandler E r).response ∧
      ∀ req, Event.send req ∈ (proxyHandler E { r with body := .ok body' }).trace ↔
        Event.send req ∈ (proxyHandler E r).trace) := by
  have hc := checked_of_object E r key body members sec secval hkey hbody hdoc hsec hsecval
    hsecNe hsecvalNe
  have hc' : Checked E { r with body := .ok body' } key (fromMembers (withSec members sec'))
      sec' secval :=
    checked_of_object E _ key body' (withSec members sec') sec' secval hkey rfl hdoc'
      (by rw [memberValue_withSec_sec, hsec]; rfl)
      (by rw [memberValue_withSec_ne _ _ _ (by decide), hsecval])
      (oneCharChanged_ne_empty sec sec' htamper) hsecvalNe
  constructor
  · intro hdiff
    have hfail : ∃ err, verifySignature E key secval sec' = .error err := by
      obtain ⟨sig, hsig, hok⟩ := verifySignature_ok_inv E key secval sec hv
      cases hd : base64Decode sec' with
      | none => exact verifySignature_malformed E key secval sec' hd
      | some sig' =>
        cases hr : E.verifyPKCS1v15 key (E.sha256 secval) sig' with
        | error err => exact verifySignature_rejected E key secval sec' sig' err hd hr
        | ok u =>
          exfalso
          apply hdiff
          rw [hd, hsig, hunique sig' sig (base64Decode_isBytes sec' sig' hd)
            (base64Decode_isBytes sec sig hsig) hr hok]
    obtain ⟨err, hv'⟩ := hfail
    rw [proxyHandler_badSignature E _ key _ sec' secval err hc' hv']
    exact ⟨rfl, rfl, by simp⟩
  · intro hsame
    exact accepted_alike E r _ key _ _ sec sec' secval hc hv hc'
      (by rw [verifySignature_congr E key secval sec sec' hsame]; exact hv)
      (sanitized_withSec members sec') (fun _ => rfl)

set_option maxRecDepth 100000 in
/-- Under the sample key at most one byte string verifies for a digest.  The
sample request with the first character of `sec` changed, which decodes to
other bytes, is answered 401 and nothing is handed to the upstream; with the
last symbol before the padding changed, which decodes to the same bytes, it is
answered like the sample request. -/
theorem C4_witness :
    (base64Decode brokenSec ≠ base64Decode sampleSec ∧
      (proxyHandler (payEnv 200) (payRequest (payBody brokenSec))).response.status = 401 ∧
      ∀ req, Event.send req ∉ (proxyHandler (payEnv 200) (payRequest (payBody brokenSec))).trace) ∧
    (base64Decode tamperedSec = base64Decode sampleSec ∧
      (proxyHandler (payEnv 200) (payRequest (payBody tamperedSec))).response =
        (proxyHandler (payEnv 200) (payRequest (payBody sampleSec))).response) :=
  ⟨⟨broken_other_bytes,
      ((C4_tampered_sec_is_401_exactly_when_signature_bytes_differ (payEnv 200)
        (payRequest (payBody sampleSec)) sampleKey (payBody sampleSec) (payBody brokenSec)
        (payMembers sampleSec) sampleSec brokenSec sampleSecval
        (payEnv_loads 200) rfl (payEnv_decode_sample 200) rfl rfl sampleSec_ne_empty
        sampleSecval_ne_empty (sample_accepts 200) (payEnv_decode_broken 200)
        one_char_broken
        (fun s t hs ht h1 h2 => sampleKey_unique ((payEnv 200).sha256 sampleSecval) s t hs ht h1 h2)).1 broken_other_bytes).2⟩,
    ⟨tampered_same_bytes,
      ((C4_tampered_sec_is_401_exactly_when_signature_bytes_differ (payEnv 200)
        (payRequest (payBody sampleSec)) sampleKey (payBody sampleSec) (payBody tamperedSec)
        (payMembers sampleSec) sampleSec tamperedSec sampleSecval
        (payEnv_loads 200) rfl (payEnv_decode_sample 200) rfl rfl sampleSec_ne_empty
        sampleSecval_ne_empty (sample_accepts 200) (payEnv_decode_tampered 200)
        one_char_tampered
        (fun s t hs ht h1 h2 => sampleKey_unique ((payEnv 200).sha256 sampleSecval) s t hs ht h1 h2)).2 tampered_same_bytes).1⟩⟩

/-! ### Claim C5 -/

/-- C5: the inbound header is a Go map filled by `net/http`, so no name occurs
twice and every name is in canonical form.  Then the header of every request
handed to the upstream holds no name that does not begin with `x-`
(case-insensitively), and for every inbound name that does begin with `x-` it
holds exactly the inbound list of values, in the same order, all the values of
a name with several. -/
theorem C5_only_custom_headers_are_forwarded (E : Env) (r : Request) (req : OutboundRequest)
    (hcanon : ∀ nv ∈ r.header, E.canonicalMIMEHeaderKey nv.1 = nv.1)
    (hnodup : (r.header.map Prod.fst).Nodup)
    (hsend : Event.send req ∈ (proxyHandler E r).trace) :
    (∀ nv ∈ req.header, BeginsWithXDash nv.1) ∧
    (∀ name values, (name, values) ∈ r.header → BeginsWithXDash name →
      Header.values req.header name = values) := by
  obtain ⟨_, _, _, _, modifiedBody, _, _, _, hn⟩ := sent_inv E r req hsend
  rw [outbound_ok E r modifiedBody req hn]
  constructor
  · intro nv hnv
    rw [← isForwardableHeader_iff]
    rcases mem_keys_forwardHeaders E r.header [] nv.1 (List.mem_map.mpr ⟨nv, hnv, rfl⟩) with
      h | ⟨nv', hmem, hf, hc⟩
    · simp at h
    · rw [hcanon nv' hmem] at hc
      rw [← hc]
      exact hf
  · intro name values hmem hf
    rw [← isForwardableHeader_iff] at hf
    simp only
    rw [values_forwardHeaders]
    have hfilter : r.header.filter (fun nv =>
        isForwardableHeader nv.1 && decide (E.canonicalMIMEHeaderKey nv.1 = name)) =
        r.header.filter (fun nv => isForwardableHeader nv.1 && decide (nv.1 = name)) := by
      apply List.filter_congr
      intro nv hnv
      rw [hcanon nv hnv]
    rw [hfilter, filter_name_eq r.header name values isForwardableHeader hf hnodup hmem]
    simp [Header.values, Header.get]

set_option maxRecDepth 100000 in
/-- The sample request carries `Content-Type` and `X-Trace-Id: a1, b2`; the
request the upstream receives has no `Content-Type` and both values of
`X-Trace-Id` in order. -/
theorem C5_witness :
    (∀ nv ∈ payOutbound.header, BeginsWithXDash nv.1) ∧
    Header.values payOutbound.header "X-Trace-Id" = ["a1", "b2"] ∧
    Header.get payOutbound.header "Content-Type" = none :=
  ⟨(C5_only_custom_headers_are_forwarded (payEnv 200) (payRequest (payBody sampleSec))
      payOutbound (fun _ _ => rfl) (by decide) (by rw [pay_run]; simp)).1,
    (C5_only_custom_headers_are_forwarded (payEnv 200) (payRequest (payBody sampleSec))
      payOutbound (fun _ _ => rfl) (by decide) (by rw [pay_run]; simp)).2
      "X-Trace-Id" ["a1", "b2"] (by simp [payRequest]) ⟨'X', _, rfl, Or.inr rfl⟩,
    rfl⟩

/-! ### Claim C6 -/

/-- C6: two requests that reach `verifySignature` and fail there, the first
because `sec` is not base64, the second because the RSA check rejects the
decoded bytes, under any keys and for any `secval`, receive the same response:
status 401 and the body `Signature verification failed` with a line feed. -/
theorem C6_signature_failure_response_is_uniform
    (E₁ : Env) (r₁ : Request) (key₁ : RSAPublicKey) (data₁ : GoMap) (sec₁ secval₁ : String)
    (E₂ : Env) (r₂ : Request) (key₂ : RSAPublicKey) (data₂ : GoMap) (sec₂ secval₂ : String)
    (sig : List Nat) (err : String)
    (h₁ : Checked E₁ r₁ key₁ data₁ sec₁ secval₁)
    (hmalformed : base64Decode sec₁ = none)
    (h₂ : Checked E₂ r₂ key₂ data₂ sec₂ secval₂)
    (hdecoded : base64Decode sec₂ = some sig)
    (hrejected : E₂.verifyPKCS1v15 key₂ (E₂.sha256 secval₂) sig = .error err) :
    (proxyHandler E₁ r₁).response = (proxyHandler E₂ r₂).response ∧
    (proxyHandler E₁ r₁).response.status = 401 ∧
    (proxyHandler E₁ r₁).response.body = "Signature verification failed\n" := by
  obtain ⟨e₁, hv₁⟩ := verifySignature_malformed E₁ key₁ secval₁ sec₁ hmalformed
  obtain ⟨e₂, hv₂⟩ := verifySignature_rejected E₂ key₂ secval₂ sec₂ sig err hdecoded hrejected
  rw [proxyHandler_badSignature E₁ r₁ key₁ data₁ sec₁ secval₁ e₁ h₁ hv₁,
    proxyHandler_badSignature E₂ r₂ key₂ data₂ sec₂ secval₂ e₂ h₂ hv₂]
  exact ⟨rfl, rfl, rfl⟩

set_option maxRecDepth 100000 in
/-- The request whose `sec` is `!!!!` (not base64) and the request whose `sec`
is the sample signature with its first symbol changed (base64, rejected by the
RSA check) receive the same response, a 401. -/
theorem C6_witness :
    (proxyHandler (payEnv 200) (payRequest (payBody "!!!!"))).response =
      (proxyHandler (payEnv 200) (payRequest (payBody brokenSec))).response ∧
    (proxyHandler (payEnv 200) (payRequest (payBody "!!!!"))).response.status = 401 ∧
    (proxyHandler (payEnv 200) (payRequest (payBody "!!!!"))).response.body =
      "Signature verification failed\n" := by
  obtain ⟨sig, err, hdec, hrej⟩ := broken_rsa_rejects 200
  exact C6_signature_failure_response_is_uniform
    (payEnv 200) (payRequest (payBody "!!!!")) sampleKey (fromMembers (payMembers "!!!!"))
    "!!!!" sampleSecval
    (payEnv 200) (payRequest (payBody brokenSec)) sampleKey (fromMembers (payMembers brokenSec))
    brokenSec sampleSecval sig err
    (malformed_checked 200) (by decide) (broken_checked 200) hdec hrej

/-! ### Claim C7 -/

set_option maxRecDepth 100000 in
/-- C7, the code departs from the claim: a request that arrives while the key
file is missing is answered 500 with the body `Public key error: failed to
read public key file: open public_key.pem: no such file or directory`, which
holds the path of the key file and the error of the operating system; with a
key file that holds no PEM block the body is `Public key error: invalid PEM
block`.  The two bodies differ, so the body depends on the text of the error.
Every other error answer of the handler is a fixed text. -/
theorem C7_key_error_body_holds_the_error_text :
    loadPublicKey noKeyFileEnv publicKeyPath =
      .error "failed to read public key file: open public_key.pem: no such file or directory" ∧
    (proxyHandler noKeyFileEnv (payRequest (payBody sampleSec))).response =
      httpError ("Public key error: failed to read public key file: " ++
        "open public_key.pem: no such file or directory") 500 ∧
    (proxyHandler noKeyFileEnv (payRequest (payBody sampleSec))).response.body =
      "Public key error: failed to read public key file: " ++
        "open public_key.pem: no such file or directory\n" ∧
    loadPublicKey emptyKeyFileEnv publicKeyPath = .error "invalid PEM block" ∧
    (proxyHandler emptyKeyFileEnv (payRequest (payBody sampleSec))).response =
      httpError "Public key error: invalid PEM block" 500 ∧
    (proxyHandler noKeyFileEnv (payRequest (payBody sampleSec))).response.body ≠
      (proxyHandler emptyKeyFileEnv (payRequest (payBody sampleSec))).response.body := by
  have h1 : loadPublicKey noKeyFileEnv publicKeyPath =
      .error "failed to read public key file: open public_key.pem: no such file or directory" :=
    rfl
  have h2 : loadPublicKey emptyKeyFileEnv publicKeyPath = .error "invalid PEM block" := by
    simp only [loadPublicKey, emptyKeyFileEnv, sampleEnv, publicKeyPath, if_true]
    rw [if_neg (by decide!)]
  refine ⟨h1, ?_, ?_, h2, ?_, ?_⟩
  · rw [proxyHandler_keyError _ _ _ h1]; rfl
  · rw [proxyHandler_keyError _ _ _ h1]; rfl
  · rw [proxyHandler_keyError _ _ _ h2]; rfl
  · rw [proxyHandler_keyError _ _ _ h2, proxyHandler_keyError _ _ _ h1]
    decide

/-! ### Claim C8 -/

/-- C8: every request handed to the upstream has the method of the inbound
request (the inbound method is never empty: `net/http` rejects a request line
without one) and the target URL `bankDomain` followed by the inbound path,
followed by `?` and the inbound raw query exactly when the raw query is not
empty. -/
theorem C8_outbound_method_and_url (E : Env) (r : Request) (req : OutboundRequest)
    (hmethod : r.method ≠ "")
    (hsend : Event.send req ∈ (proxyHandler E r).trace) :
    req.method = r.method ∧
    (r.rawQuery = "" → req.url = bankDomain ++ r.path) ∧
    (r.rawQuery ≠ "" → req.url = bankDomain ++ r.path ++ "?" ++ r.rawQuery) := by
  obtain ⟨_, _, _, _, modifiedBody, _, _, _, hn⟩ := sent_inv E r req hsend
  rw [outbound_ok E r modifiedBody req hn]
  refine ⟨by simp [hmethod], ?_, ?_⟩
  · intro hq
    simp [targetURL, hq]
  · intro hq
    simp [targetURL, hq]

set_option maxRecDepth 100000 in
/-- The request `POST /pay/request` goes to `POST
https://sep.shaparak.ir/pay/request`, and with the raw query `ref=7` to
`https://sep.shaparak.ir/pay/request?ref=7`. -/
theorem C8_witness :
    (payOutbound.method = "POST" ∧ payOutbound.url = "https://sep.shaparak.ir/pay/request") ∧
    (queryOutbound.method = "POST" ∧
      queryOutbound.url = "https://sep.shaparak.ir/pay/request?ref=7") :=
  ⟨⟨(C8_outbound_method_and_url (payEnv 200) (payRequest (payBody sampleSec)) payOutbound
        (by decide) (by rw [pay_run]; simp)).1,
      (C8_outbound_method_and_url (payEnv 200) (payRequest (payBody sampleSec)) payOutbound
        (by decide) (by rw [pay_run]; simp)).2.1 rfl⟩,
    ⟨(C8_outbound_method_and_url (payEnv 200) queryRequest queryOutbound
        (by decide) (by rw [query_run]; simp)).1,
      (C8_outbound_method_and_url (payEnv 200) queryRequest queryOutbound
        (by decide) (by rw [query_run]; simp)).2.2 (by decide)⟩⟩

/-! ### Claim C9 -/

/-- C9: with the key loaded and the body read, a body that is not valid JSON,
or is valid JSON whose top-level value is not an object (an array, a string, a
number, a boolean or null), is answered 400 with an empty trace: no signature
is verified and the upstream is not contacted. -/
theorem C9_body_not_a_json_object_is_400
    (E : Env) (r : Request) (key : RSAPublicKey) (body : String)
    (hkey : loadPublicKey E publicKeyPath = .ok key)
    (hbody : r.body = .ok body)
    (hbad : (∃ err, E.jsonDecode body = .error err) ∨
      ∃ top, E.jsonDecode body = .ok top ∧ ∀ members, top ≠ .object members) :
    (proxyHandler E r).response.status = 400 ∧ (proxyHandler E r).trace = [] := by
  rcases hbad with ⟨err, he⟩ | ⟨top, ht, hno⟩
  · rw [proxyHandler_jsonError E r key body err hkey hbody (by simp [jsonUnmarshal, he])]
    exact ⟨rfl, rfl⟩
  · cases top with
    | object members => exact absurd rfl (hno members)
    | null =>
      rw [proxyHandler_notStrings E r key body [] hkey hbody (by simp [jsonUnmarshal, ht])
        (Or.inl rfl)]
      exact ⟨rfl, rfl⟩
    | bool b =>
      rw [proxyHandler_jsonError E r key body _ hkey hbody (by simp [jsonUnmarshal, ht]; rfl)]
      exact ⟨rfl, rfl⟩
    | number n =>
      rw [proxyHandler_jsonError E r key body _ hkey hbody (by simp [jsonUnmarshal, ht]; rfl)]
      exact ⟨rfl, rfl⟩
    | string s =>
      rw [proxyHandler_jsonError E r key body _ hkey hbody (by simp [jsonUnmarshal, ht]; rfl)]
      exact ⟨rfl, rfl⟩
    | array xs =>
      rw [proxyHandler_jsonError E r key body _ hkey hbody (by simp [jsonUnmarshal, ht]; rfl)]
      exact ⟨rfl, rfl⟩

set_option maxRecDepth 100000 in
/-- The bodies `[1,2]` (an array), `null` and `not json` (no JSON at all) are
answered 400 with an empty trace. -/
theorem C9_witness :
    ((proxyHandler (payEnv 200) (payRequest "[1,2]")).response.status = 400 ∧
      (proxyHandler (payEnv 200) (payRequest "[1,2]")).trace = []) ∧
    ((proxyHandler (payEnv 200) (payRequest "null")).response.status = 400 ∧
      (proxyHandler (payEnv 200) (payRequest "null")).trace = []) ∧
    ((proxyHandler (payEnv 200) (payRequest "not json")).response.status = 400 ∧
      (proxyHandler (payEnv 200) (payRequest "not json")).trace = []) :=
  ⟨C9_body_not_a_json_object_is_400 (payEnv 200) (payRequest "[1,2]") sampleKey "[1,2]"
      (payEnv_loads 200) rfl (Or.inr ⟨_, rfl, fun _ h => by cases h⟩),
    C9_body_not_a_json_object_is_400 (payEnv 200) (payRequest "null") sampleKey "null"
      (payEnv_loads 200) rfl (Or.inr ⟨_, rfl, fun _ h => by cases h⟩),
    C9_body_not_a_json_object_is_400 (payEnv 200) (payRequest "not json") sampleKey "not json"
      (payEnv_loads 200) rfl (Or.inl ⟨_, rfl⟩)⟩

/-! ### Claim C10 -/

set_option maxRecDepth 100000 in
/-- C10, the claim fails in one direction: the sample request has a non-empty
`sec` and a non-empty `secval` and a valid signature, it is forwarded, the
upstream answers 404, and so the response is 404 although neither string is
empty. -/
theorem C10_counterexample :
    loadPublicKey (payEnv 404) publicKeyPath = .ok sampleKey ∧
    (payEnv 404).jsonDecode (payBody sampleSec) = .ok (.object (payMembers sampleSec)) ∧
    (proxyHandler (payEnv 404) (payRequest (payBody sampleSec))).response.status = 404 ∧
    ¬ ∃ sec secval, memberValue (payMembers sampleSec) "sec" = some (.string sec) ∧
        memberValue (payMembers sampleSec) "secval" = some (.string secval) ∧
        (sec = "" ∨ secval = "") := by
  refine ⟨payEnv_loads 404, payEnv_decode_sample 404, ?_, ?_⟩
  · rw [pay_run]; rfl
  · rintro ⟨sec, secval, hsec, hsecval, hempty⟩
    have h1 : sec = sampleSec := by
      have : some (GoValue.string sampleSec) = some (GoValue.string sec) := hsec
      injection this with this
      injection this with this
      exact this.symm
    have h2 : secval = sampleSecval := by
      have : some (GoValue.string sampleSecval) = some (GoValue.string secval) := hsecval
      injection this with this
      injection this with this
      exact this.symm
    subst h1 h2
    rcases hempty with h | h
    · exact sampleSec_ne_empty h
    · exact sampleSecval_ne_empty h

/-- C10 as amended: with the key loaded and the body a JSON object, the handler
itself answers 404, with an empty trace (before any verification, nothing
forwarded), if and only if `sec` and `secval` are both present as strings and
at least one of them is empty; if either is missing or is not a string the
response is 400, whatever the other one is. -/
theorem C10_type_check_before_emptiness_check
    (E : Env) (r : Request) (key : RSAPublicKey) (body : String)
    (members : List (String × GoValue))
    (hkey : loadPublicKey E publicKeyPath = .ok key)
    (hbody : r.body = .ok body)
    (hdoc : E.jsonDecode body = .ok (.object members)) :
    (((proxyHandler E r).response.status = 404 ∧ (proxyHandler E r).trace = []) ↔
      ∃ sec secval, memberValue members "sec" = some (.string sec) ∧
        memberValue members "secval" = some (.string secval) ∧ (sec = "" ∨ secval = "")) ∧
    (((¬ ∃ s, memberValue members "sec" = some (.string s)) ∨
        (¬ ∃ s, memberValue members "secval" = some (.string s))) →
      (proxyHandler E r).response.status = 400) := by
  constructor
  · constructor
    · rintro ⟨hstatus, htrace⟩
      by_cases hs : ∃ s, memberValue members "sec" = some (.string s)
      · by_cases hsv : ∃ s, memberValue members "secval" = some (.string s)
        · obtain ⟨sec, hsec⟩ := hs
          obtain ⟨secval, hsecval⟩ := hsv
          by_cases hempty : sec = "" ∨ secval = ""
          · exact ⟨sec, secval, hsec, hsecval, hempty⟩
          · exfalso
            have hc := checked_of_object E r key body members sec secval hkey hbody hdoc hsec
              hsecval (fun h => hempty (Or.inl h)) (fun h => hempty (Or.inr h))
            obtain ⟨rest, hrest⟩ := checked_trace E r key _ sec secval hc
            rw [hrest] at htrace
            cases htrace
        · exfalso
          rw [proxyHandler_object_notStrings E r key body members hkey hbody hdoc (Or.inr hsv)]
            at hstatus
          cases hstatus
      · exfalso
        rw [proxyHandler_object_notStrings E r key body members hkey hbody hdoc (Or.inl hs)]
          at hstatus
        cases hstatus
    · rintro ⟨sec, secval, hsec, hsecval, hempty⟩
      rw [proxyHandler_object_empty E r key body members sec secval hkey hbody hdoc hsec
        hsecval hempty]
      exact ⟨rfl, rfl⟩
  · intro hty
    rw [proxyHandler_object_notStrings E r key body members hkey hbody hdoc hty]
    rfl

set_option maxRecDepth 100000 in
/-- The bodies `{"sec":5,"secval":""}` and `{"secval":""}` are answered 400, not
404, and `{"sec":"","secval":""}` is answered 404 with an empty trace. -/
theorem C10_witness :
    (proxyHandler (payEnv 200) (payRequest "\x7b\"sec\":5,\"secval\":\"\"\x7d")).response.status
        = 400 ∧
    (proxyHandler (payEnv 200) (payRequest "\x7b\"secval\":\"\"\x7d")).response.status = 400 ∧
    ((proxyHandler (payEnv 200)
        (payRequest "\x7b\"sec\":\"\",\"secval\":\"\"\x7d")).response.status = 404 ∧
      (proxyHandler (payEnv 200) (payRequest "\x7b\"sec\":\"\",\"secval\":\"\"\x7d")).trace = []) :=
  ⟨(C10_type_check_before_emptiness_check (payEnv 200)
      (payRequest "\x7b\"sec\":5,\"secval\":\"\"\x7d") sampleKey
      "\x7b\"sec\":5,\"secval\":\"\"\x7d"
      [("sec", .float64 0x4014000000000000), ("secval", .string "")]
      (payEnv_loads 200) rfl rfl).2
      (Or.inl (by rintro ⟨s, hs⟩; simp [memberValue] at hs)),
    (C10_type_check_before_emptiness_check (payEnv 200)
      (payRequest "\x7b\"secval\":\"\"\x7d") sampleKey "\x7b\"secval\":\"\"\x7d"
      [("secval", .string "")] (payEnv_loads 200) rfl rfl).2
      (Or.inl (by rintro ⟨s, hs⟩; simp [memberValue] at hs)),
    (C10_type_check_before_emptiness_check (payEnv 200)
      (payRequest "\x7b\"sec\":\"\",\"secval\":\"\"\x7d") sampleKey
      "\x7b\"sec\":\"\",\"secval\":\"\"\x7d" [("sec", .string ""), ("secval", .string "")]
      (payEnv_loads 200) rfl rfl).1.2 ⟨"", "", rfl, rfl, Or.inl rfl⟩⟩

end SepProxy
